import Mathlib

/-!
# Verification of the tree-scoring pipeline (`src/App.tsx`)

A shallow embedding, over `ℚ` (exact rationals in place of finite IEEE doubles)
and `ℝ` (for the transcendental haversine geometry), of the core data pipeline:
CSV-shaped parsing, record normalization, a k-d spatial index with anisotropic
axis pruning, inverse-distance rent interpolation, and the scoring engine.

Modelling conventions, used throughout:
* JS finite `number` values are modelled as `ℚ`; a JS computation that can
  produce a non-finite value (`NaN`, `±Infinity`) is modelled with `Option ℚ`
  (`none` = non-finite), so `Number.isFinite` guards become `Option` matches,
  and guards that can never see a non-finite value in the model are dropped
  with a comment.
* JS strings are modelled as Lean `String`s (sequences of characters);
  `String.prototype.toLowerCase` is modelled by ASCII case folding, which is
  exact on every string literal the code compares against.
* The transcendental haversine distance and the longitude conversion are
  modelled over `ℝ` with `Real.sin`, `Real.cos`, `Real.arctan`.
* JS `Array.prototype.sort` with a numeric-difference comparator is a stable
  ascending sort; it is modelled by a stable insertion sort by key.
-/

/-- `clamp` from the source: `Math.min(Math.max(value, min), max)`. -/
def clamp (value lo hi : ℚ) : ℚ := min (max value lo) hi

/-- The character set of the JS `\s` regexp class and of `String.prototype.trim`
(WhiteSpace ∪ LineTerminator), by code point. -/
def isJsSpace (c : Char) : Bool :=
  c.toNat = 32 || c.toNat = 9 || c.toNat = 10 || c.toNat = 11 || c.toNat = 12 ||
  c.toNat = 13 || c.toNat = 160 || c.toNat = 5760 ||
  (8192 ≤ c.toNat && c.toNat ≤ 8202) || c.toNat = 8232 || c.toNat = 8233 ||
  c.toNat = 8239 || c.toNat = 8287 || c.toNat = 12288 || c.toNat = 65279

/-- `text.replace(/\s+/g, ' ')`: each maximal run of whitespace becomes one
space.  The `Bool` flag records whether the previous character was whitespace
(i.e. whether we are inside a run that has already emitted its space). -/
def collapseAux : Bool → List Char → List Char
  | _, [] => []
  | prevSpace, c :: cs =>
    if isJsSpace c then
      if prevSpace then collapseAux true cs else ' ' :: collapseAux true cs
    else c :: collapseAux false cs

/-- `text.replace(/\s+/g, ' ')` on a character list. -/
def collapseSpaces (l : List Char) : List Char := collapseAux false l

/-- `String.prototype.trim` on a character list. -/
def jsTrimChars (l : List Char) : List Char :=
  (((l.dropWhile isJsSpace).reverse).dropWhile isJsSpace).reverse

/-- `String.prototype.trim`. -/
def jsTrimString (s : String) : String := String.mk (jsTrimChars s.data)

/-- ASCII case folding for one character, the fragment of
`String.prototype.toLowerCase` exercised by the code's comparisons. -/
def jsCharToLower (c : Char) : Char :=
  if 65 ≤ c.toNat && c.toNat ≤ 90 then Char.ofNat (c.toNat + 32) else c

/-- `String.prototype.toLowerCase` (ASCII fragment). -/
def jsToLower (s : String) : String := String.mk (s.data.map jsCharToLower)

/-- `normalizeNeighborhoodName` from the source:
whitespace-collapse, trim, and default the empty result to `"Unknown"`. -/
def normalizeNeighborhoodName (value : String) : String :=
  let trimmed := String.mk (jsTrimChars (collapseSpaces value.data))
  if trimmed = "" then "Unknown" else trimmed

/-- The fixed `RENT_KEY_ALIASES` table from the source. -/
def rentKeyAlias (lowered : String) : String :=
  if lowered = "gramecy park" then "gramercy park"
  else if lowered = "stuyvesant town" then "stuyvesant town/pcv"
  else lowered

/-- `normalizeRentKey` from the source. -/
def normalizeRentKey (value : String) : String :=
  let normalized := normalizeNeighborhoodName value
  if normalized = "" ∨ normalized = "Unknown" then ""
  else rentKeyAlias (jsToLower normalized)

/-- `TreeRecord` from the source, coordinates and scores over `ℚ`. -/
structure TreeRecord where
  treeId : String
  status : String
  sidewalk : String
  problems : String
  latitude : ℚ
  longitude : ℚ
  neighborhood : String
  species : String
  treeFriendsScore : ℚ
  affordabilityScore : Option ℚ
  accessibilityScore : Option ℚ
deriving DecidableEq

/-- `NeighborhoodRecord` from the source. -/
structure NeighborhoodRecord where
  name : String
  latitude : ℚ
  longitude : ℚ
deriving DecidableEq

/-- `NeighborhoodMatch` from the source (`rent` is nullable). -/
structure NeighborhoodMatch where
  name : String
  distance : ℚ
  rent : Option ℚ
deriving DecidableEq

/-- `calculateHealthScore` from the source.  JS truthiness of `tree.problems`
is non-emptiness of the string. -/
def calculateHealthScore (tree : TreeRecord) : ℚ :=
  let status := jsToLower tree.status
  if status = "stump" ∨ status = "dead" then 0
  else
    let d1 : ℕ := if jsToLower tree.status ≠ "alive" then 1 else 0
    let d2 : ℕ := if jsToLower tree.sidewalk ≠ "nodamage" then 1 else 0
    let d3 : ℕ :=
      if tree.problems ≠ "" ∧ jsToLower (jsTrimString tree.problems) ≠ "none" then 1 else 0
    let differences := d1 + d2 + d3
    if differences = 0 then 3 else if differences = 1 then 2 else 1

/-- `calculateAffordabilityScore` from the source.  A `ℚ` argument is always
finite, so the `!Number.isFinite(expectedRent)` disjunct of the guard is
vacuous in the model and only the `expectedRent === 0` case remains. -/
def calculateAffordabilityScore (expectedRent : ℚ) : ℚ :=
  if expectedRent = 0 then 0
  else clamp (36370 / expectedRent - 2.737) 0 10

/-- `calculateExpectedRent` from the source: destructures the first three
matches, requires all three rents non-null, floors the three distances at 0,
and either averages (zero denominator) or applies the barycentric weights. -/
def calculateExpectedRent (matchList : List NeighborhoodMatch) : Option ℚ :=
  match matchList with
  | x1 :: x2 :: x3 :: _ =>
    match x1.rent, x2.rent, x3.rent with
    | some r1, some r2, some r3 =>
      let d1 := max x1.distance 0
      let d2 := max x2.distance 0
      let d3 := max x3.distance 0
      let denominator := d1 + d2 + d3
      if denominator = 0 then some ((r1 + r2 + r3) / 3)
      else
        let weight1 := (d2 + d3 - d1) / denominator
        let weight2 := (d1 + d3 - d2) / denominator
        let weight3 := (d1 + d2 - d3) / denominator
        some (weight1 * r1 + weight2 * r2 + weight3 * r3)
    | _, _, _ => none
  | _ => none

/-- `getNeighborhoodRent` from the source; the JS `Map` is modelled by its
lookup function `String → Option ℚ`. -/
def getNeighborhoodRent (name : String) (rentLookup : String → Option ℚ) : Option ℚ :=
  let key := normalizeRentKey name
  if key = "" then none else rentLookup key

/-- `normalizeTreeFriendsScore` from the source (finite input in the model). -/
def normalizeTreeFriendsScore (score : ℚ) : ℚ := clamp score 0 10 / 10 * 4

/-- `normalizeAffordabilityScore` from the source; `none` is JS `null`. -/
def normalizeAffordabilityScore (value : Option ℚ) : ℚ :=
  match value with
  | none => 0
  | some v => clamp v 0 10 / 10 * 4

/-- `getTreeFriendsScore` from the source, for a finite average distance; the
non-finite average (no neighbors) is handled at the call site in
`assignTreeFriendsScores`, where it is modelled by the empty distance list. -/
def getTreeFriendsScore (averageDistance : ℚ) : ℚ :=
  if averageDistance ≤ 0 then 10
  else if averageDistance < 2 then 10
  else clamp (10 - 0.12 * (averageDistance - 2)) 0 10

/-- Stable insert for `sortByKey`: `x` goes before the first element whose key
is `≥ key x`, so a later-arriving element never jumps ahead of an equal key. -/
def insertSortedBy {σ α : Type} [LinearOrder α] (key : σ → α) (x : σ) : List σ → List σ
  | [] => [x]
  | y :: ys => if key x ≤ key y then x :: y :: ys else y :: insertSortedBy key x ys

/-- Model of JS `Array.prototype.sort` with an ascending numeric comparator:
a stable ascending insertion sort by key. -/
def sortByKey {σ α : Type} [LinearOrder α] (key : σ → α) : List σ → List σ
  | [] => []
  | x :: xs => insertSortedBy key x (sortByKey key xs)

theorem length_insertSortedBy {σ α : Type} [LinearOrder α] (key : σ → α) (x : σ)
    (l : List σ) : (insertSortedBy key x l).length = l.length + 1 := by
  induction l with
  | nil => rfl
  | cons y ys ih =>
    by_cases h : key x ≤ key y <;> simp [insertSortedBy, h, ih]

theorem length_sortByKey {σ α : Type} [LinearOrder α] (key : σ → α) (l : List σ) :
    (sortByKey key l).length = l.length := by
  induction l with
  | nil => rfl
  | cons y ys ih => simp [sortByKey, length_insertSortedBy, ih]

/-- `IndexedTreePoint` from the source, minus the mutable back-pointer to the
tree record (scores are threaded functionally instead). -/
structure IdxPoint (α : Type) where
  latitude : α
  longitude : α
  index : ℕ
deriving DecidableEq

/-- `KdTreeNode` from the source; `leaf` is the JS `null` child. -/
inductive KdTree (α : Type) where
  | leaf
  | node (point : IdxPoint α) (axis : ℕ) (left right : KdTree α)
deriving DecidableEq

/-- `buildKdTree` from the source: sort the subset by the level's axis, take
the floor-middle element as the node, recurse on the two halves.  The `none`
branch of the median lookup is unreachable (the list is non-empty). -/
def buildKdTree {α : Type} [LinearOrder α] (points : List (IdxPoint α)) (depth : ℕ) :
    KdTree α :=
  match h : points with
  | [] => .leaf
  | _ :: _ =>
    let axis := depth % 2
    let sorted := sortByKey (fun p => if axis = 0 then p.latitude else p.longitude) points
    let medianIndex := sorted.length / 2
    match sorted[medianIndex]? with
    | none => .leaf
    | some medianPoint =>
      .node medianPoint axis
        (buildKdTree (sorted.take medianIndex) (depth + 1))
        (buildKdTree (sorted.drop (medianIndex + 1)) (depth + 1))
termination_by points.length
decreasing_by
  all_goals
    simp only [List.length_take, List.length_drop, length_sortByKey, h, List.length_cons]
  all_goals omega

/-- The `addDistance` closure from `findKNearestNeighborDistances`: push, sort
ascending, truncate to `k` from the far end.  The `Number.isFinite` guard is
vacuous in the model (every `α` value is finite). -/
def addDistance {α : Type} [LinearOrderedField α] (k : ℕ) (distances : List α) (d : α) :
    List α :=
  let ds := sortByKey id (distances ++ [d])
  if k < ds.length then ds.dropLast else ds

/-- The recursive `search` closure from `findKNearestNeighborDistances`, with
the mutable `distances` array threaded through.  `dist` is the pairwise
distance (haversine in the source) and `axisConv` is
`getAxisDistanceMeters(deltaDegrees, axis, referenceLatitude)`.
`none` from `getLast?` models `distances[distances.length - 1] ?? +Infinity`
(any finite axis distance is below `+Infinity`). -/
def searchKd {α : Type} [LinearOrderedField α]
    (dist : α → α → α → α → α) (axisConv : α → ℕ → α → α)
    (target : IdxPoint α) (k : ℕ) : KdTree α → List α → List α
  | .leaf, distances => distances
  | .node point axis left right, distances =>
    let targetValue := if axis = 0 then target.latitude else target.longitude
    let nodeValue := if axis = 0 then point.latitude else point.longitude
    let ds1 :=
      if targetValue < nodeValue then searchKd dist axisConv target k left distances
      else searchKd dist axisConv target k right distances
    let ds2 :=
      if point.index = target.index then ds1
      else addDistance k ds1 (dist target.latitude target.longitude point.latitude point.longitude)
    let deltaDegrees := |targetValue - nodeValue|
    let axisDistanceMeters := axisConv deltaDegrees axis target.latitude
    let explore :=
      decide (ds2.length < k) ||
        (match ds2.getLast? with
         | none => true
         | some m => decide (axisDistanceMeters < m))
    if explore then
      if targetValue < nodeValue then searchKd dist axisConv target k right ds2
      else searchKd dist axisConv target k left ds2
    else ds2

/-- `findKNearestNeighborDistances` from the source. -/
def findKNearestNeighborDistances {α : Type} [LinearOrderedField α]
    (dist : α → α → α → α → α) (axisConv : α → ℕ → α → α)
    (root : KdTree α) (target : IdxPoint α) (k : ℕ) : List α :=
  searchKd dist axisConv target k root []

/-- `getClosestNeighborhoodMatches` from the source, over `ℚ` with the
geodesic distance abstracted as `dist`.  The `Number.isFinite(distance)` guard
is vacuous in the model; `none` from `getLast?` models
`matches[matches.length - 1]?.distance ?? +Infinity`. -/
def getClosestNeighborhoodMatches (dist : ℚ → ℚ → ℚ → ℚ → ℚ)
    (latitude longitude : ℚ) (neighborhoods : List NeighborhoodRecord)
    (rentLookup : String → Option ℚ) (limit : ℕ) : List NeighborhoodMatch :=
  if neighborhoods.isEmpty ∨ limit = 0 then []
  else
    neighborhoods.foldl
      (fun matchesAcc neighborhood =>
        let distance := dist latitude longitude neighborhood.latitude neighborhood.longitude
        let m : NeighborhoodMatch :=
          ⟨neighborhood.name, distance, getNeighborhoodRent neighborhood.name rentLookup⟩
        if matchesAcc.length < limit then
          sortByKey NeighborhoodMatch.distance (matchesAcc ++ [m])
        else
          let closerThanFarthest :=
            match matchesAcc.getLast? with
            | none => true
            | some last => decide (distance < last.distance)
          if closerThanFarthest then
            sortByKey NeighborhoodMatch.distance (matchesAcc.dropLast ++ [m])
          else matchesAcc)
      []

/-- `parseCsvLine` scanner from the source: RFC4180-style quoting with
doubled-quote escapes; arguments are the remaining input, the `inQuotes`
flag, the current field, and the fields already produced. -/
def parseCsvLineAux : List Char → Bool → List Char → List (List Char) → List (List Char)
  | [], _, current, result => result ++ [current]
  | '"' :: '"' :: rest, true, current, result =>
    parseCsvLineAux rest true (current ++ ['"']) result
  | '"' :: rest, inQuotes, current, result => parseCsvLineAux rest (!inQuotes) current result
  | ',' :: rest, false, current, result => parseCsvLineAux rest false [] (result ++ [current])
  | c :: rest, inQuotes, current, result => parseCsvLineAux rest inQuotes (current ++ [c]) result

/-- `parseCsvLine` from the source. -/
def parseCsvLine (line : String) : List String :=
  (parseCsvLineAux line.data false [] []).map String.mk

/-- The number of field-separating commas the scanner sees (commas consumed
while `inQuotes` is false), with the same quote-handling state machine. -/
def countUnquotedCommasAux : List Char → Bool → ℕ
  | [], _ => 0
  | '"' :: '"' :: rest, true => countUnquotedCommasAux rest true
  | '"' :: rest, inQuotes => countUnquotedCommasAux rest (!inQuotes)
  | ',' :: rest, false => 1 + countUnquotedCommasAux rest false
  | _ :: rest, inQuotes => countUnquotedCommasAux rest inQuotes

/-- `text.split(/\r?\n/)`: a lone `\r` is not a separator, `\r\n` is consumed
as one separator. -/
def splitNewlinesAux (acc : List Char) : List Char → List (List Char)
  | [] => [acc.reverse]
  | '\r' :: '\n' :: rest => acc.reverse :: splitNewlinesAux [] rest
  | '\n' :: rest => acc.reverse :: splitNewlinesAux [] rest
  | c :: rest => splitNewlinesAux (c :: acc) rest

/-- Strip one leading byte-order mark, `text.replace` with the `^` BOM regexp. -/
def stripBom : List Char → List Char
  | '\uFEFF' :: rest => rest
  | l => l

/-- The shared line-extraction prelude of the three parsers:
BOM-strip, trim, split on any line-ending style, drop empty lines. -/
def csvLines (csvData : String) : List String :=
  let normalizedData := jsTrimChars (stripBom csvData.data)
  ((splitNewlinesAux [] normalizedData).filter (fun l => l ≠ [])).map String.mk

/-- The header-row `reduce`: `acc[header] = values[index] ?? ''`, so a
repeated header keeps its last value and a missing key is JS `undefined`
(modelled as `none`). -/
def rowLookup (headers values : List String) (key : String) : Option String :=
  ((headers.enum.filter (fun p => p.2 = key)).getLast?).map (fun p => values.getD p.1 "")

/-- `Number(row[key])` restricted to finite results: `none` models a
non-finite coercion (including `Number(undefined) = NaN` for a missing
header).  `parseNum` abstracts the JS `Number` string coercion. -/
def numField (parseNum : String → Option ℚ) (headers values : List String)
    (key : String) : Option ℚ :=
  (rowLookup headers values key).bind parseNum

/-- `row[key]?.trim() ?? ''` (and equivalently `(row[key] ?? '').trim()`). -/
def textFieldTrimmed (headers values : List String) (key : String) : String :=
  match rowLookup headers values key with
  | none => ""
  | some s => jsTrimString s

/-- The `points` array of `assignTreeFriendsScores`: each tree with its
position index. -/
def treePoints (trees : List TreeRecord) : List (IdxPoint ℚ) :=
  trees.enum.map (fun p => ⟨p.2.latitude, p.2.longitude, p.1⟩)

/-- `assignTreeFriendsScores` from the source (functional: returns the
updated collection).  An empty `neighborDistances` means
`averageDistance = +Infinity`, for which `getTreeFriendsScore` returns 10
through its non-finite branch. -/
def assignTreeFriendsScores (dist : ℚ → ℚ → ℚ → ℚ → ℚ) (axisConv : ℚ → ℕ → ℚ → ℚ)
    (trees : List TreeRecord) (neighborCount : ℕ) : List TreeRecord :=
  if trees.isEmpty then trees
  else
    match buildKdTree (treePoints trees) 0 with
    | .leaf => trees
    | root =>
      trees.enum.map (fun p =>
        let point : IdxPoint ℚ := ⟨p.2.latitude, p.2.longitude, p.1⟩
        let neighborDistances :=
          findKNearestNeighborDistances dist axisConv root point neighborCount
        let score :=
          match neighborDistances with
          | [] => (10 : ℚ)
          | ds => getTreeFriendsScore (ds.sum / (ds.length : ℚ))
        { p.2 with treeFriendsScore := score })

/-- `assignAccessibilityScores` from the source (functional). -/
def assignAccessibilityScores (trees : List TreeRecord) : List TreeRecord :=
  trees.map (fun tree =>
    let normalizedTreeFriends := normalizeTreeFriendsScore tree.treeFriendsScore
    let normalizedAffordability := normalizeAffordabilityScore tree.affordabilityScore
    let healthScore := calculateHealthScore tree
    let totalScore := normalizedTreeFriends + normalizedAffordability + healthScore
    let isDead := jsToLower (jsTrimString tree.status) = "dead"
    { tree with accessibilityScore := some (if isDead then 0 else totalScore) })

/-- The per-data-line body of `parseTreeData`. -/
def parseTreeRow (parseNum : String → Option ℚ) (dist : ℚ → ℚ → ℚ → ℚ → ℚ)
    (neighborhoods : List NeighborhoodRecord) (rentLookup : String → Option ℚ)
    (headers : List String) (line : String) : Option TreeRecord :=
  let values := parseCsvLine line
  match numField parseNum headers values "latitude",
        numField parseNum headers values "longitude" with
  | some latitude, some longitude =>
    let nearestMatches :=
      getClosestNeighborhoodMatches dist latitude longitude neighborhoods rentLookup 3
    let closestNeighborhood := ((nearestMatches.head?).map NeighborhoodMatch.name).getD "Unknown"
    let expectedRent := calculateExpectedRent nearestMatches
    let affordabilityScore := expectedRent.map calculateAffordabilityScore
    some
      { treeId :=
          (let t := textFieldTrimmed headers values "tree_id"
           if t = "" then "unknown" else t)
        status := textFieldTrimmed headers values "status"
        sidewalk := textFieldTrimmed headers values "sidewalk"
        problems := textFieldTrimmed headers values "problems"
        latitude := latitude
        longitude := longitude
        neighborhood := closestNeighborhood
        species :=
          (let s := jsToLower (textFieldTrimmed headers values "spc_common")
           if s = "" then "unknown" else s)
        treeFriendsScore := 0
        affordabilityScore := affordabilityScore
        accessibilityScore := none }
  | _, _ => none

/-- `parseTreeData` from the source: line extraction, the ≤ 1 line early
return, per-row parsing with non-finite coordinate rows dropped, then the two
collection-wide scoring passes in order. -/
def parseTreeData (parseNum : String → Option ℚ) (dist : ℚ → ℚ → ℚ → ℚ → ℚ)
    (axisConv : ℚ → ℕ → ℚ → ℚ) (csvData : String)
    (neighborhoods : List NeighborhoodRecord) (rentLookup : String → Option ℚ) :
    List TreeRecord :=
  match csvLines csvData with
  | [] => []
  | [_] => []
  | headerLine :: dataLines =>
    let headers := parseCsvLine headerLine
    let parsedTrees :=
      dataLines.filterMap (parseTreeRow parseNum dist neighborhoods rentLookup headers)
    assignAccessibilityScores (assignTreeFriendsScores dist axisConv parsedTrees 5)

theorem clamp_mem (v lo hi : ℚ) (h : lo ≤ hi) : lo ≤ clamp v lo hi ∧ clamp v lo hi ≤ hi :=
  ⟨le_min (le_max_right _ _) h, min_le_right _ _⟩

theorem getTreeFriendsScore_bounds (avg : ℚ) :
    0 ≤ getTreeFriendsScore avg ∧ getTreeFriendsScore avg ≤ 10 := by
  unfold getTreeFriendsScore
  split_ifs
  · exact ⟨by norm_num, by norm_num⟩
  · exact ⟨by norm_num, by norm_num⟩
  · exact clamp_mem _ 0 10 (by norm_num)

theorem calculateAffordabilityScore_bounds (r : ℚ) :
    0 ≤ calculateAffordabilityScore r ∧ calculateAffordabilityScore r ≤ 10 := by
  unfold calculateAffordabilityScore
  split_ifs
  · exact ⟨le_refl 0, by norm_num⟩
  · exact clamp_mem _ 0 10 (by norm_num)

theorem normalizeTreeFriendsScore_bounds (s : ℚ) :
    0 ≤ normalizeTreeFriendsScore s ∧ normalizeTreeFriendsScore s ≤ 4 := by
  have h := clamp_mem s 0 10 (by norm_num)
  unfold normalizeTreeFriendsScore
  constructor <;> nlinarith [h.1, h.2]

theorem normalizeAffordabilityScore_bounds (v : Option ℚ) :
    0 ≤ normalizeAffordabilityScore v ∧ normalizeAffordabilityScore v ≤ 4 := by
  cases v with
  | none => norm_num [normalizeAffordabilityScore]
  | some q =>
    have h := clamp_mem q 0 10 (by norm_num)
    unfold normalizeAffordabilityScore
    constructor <;> nlinarith [h.1, h.2]

/-- The mismatch count of `calculateHealthScore` against its three healthy
baselines (the `differences` accumulator of the source). -/
def healthMismatches (tree : TreeRecord) : ℕ :=
  (if jsToLower tree.status ≠ "alive" then 1 else 0) +
  (if jsToLower tree.sidewalk ≠ "nodamage" then 1 else 0) +
  (if tree.problems ≠ "" ∧ jsToLower (jsTrimString tree.problems) ≠ "none" then 1 else 0)

/-- C5: the health score is one of 0,1,2,3; status "stump" or "dead"
(case-insensitive) forces 0 unconditionally; otherwise 0 mismatches give 3,
exactly 1 gives 2, and 2 or more give 1. -/
theorem health_score_cases (tree : TreeRecord) :
    (calculateHealthScore tree = 0 ∨ calculateHealthScore tree = 1 ∨
      calculateHealthScore tree = 2 ∨ calculateHealthScore tree = 3) ∧
    ((jsToLower tree.status = "stump" ∨ jsToLower tree.status = "dead") →
      calculateHealthScore tree = 0) ∧
    (¬(jsToLower tree.status = "stump" ∨ jsToLower tree.status = "dead") →
      (healthMismatches tree = 0 → calculateHealthScore tree = 3) ∧
      (healthMismatches tree = 1 → calculateHealthScore tree = 2) ∧
      (2 ≤ healthMismatches tree → calculateHealthScore tree = 1)) := by
  simp only [calculateHealthScore, healthMismatches]
  by_cases hsd : jsToLower tree.status = "stump" ∨ jsToLower tree.status = "dead"
  · rw [if_pos hsd]
    exact ⟨Or.inl rfl, fun _ => rfl, fun h => absurd hsd h⟩
  · rw [if_neg hsd]
    split_ifs <;>
      refine ⟨by norm_num, fun h => absurd h hsd, fun _ => ⟨?_, ?_, ?_⟩⟩ <;> intro hm <;>
      first | rfl | exact hm.elim | exact absurd hm (by omega) | (exfalso; assumption)

theorem calculateHealthScore_bounds (tree : TreeRecord) :
    0 ≤ calculateHealthScore tree ∧ calculateHealthScore tree ≤ 3 := by
  rcases (health_score_cases tree).1 with h | h | h | h <;> rw [h] <;> norm_num

/-- C5 witness: a fully healthy record scores 3, evaluated concretely. -/
theorem health_score_cases_witness :
    calculateHealthScore
      { treeId := "1", status := "Alive", sidewalk := "NoDamage", problems := "None",
        latitude := 0, longitude := 0, neighborhood := "x", species := "oak",
        treeFriendsScore := 0, affordabilityScore := none, accessibilityScore := none } = 3 := by
  exact ((health_score_cases _).2.2 (by decide)).1 (by decide)

/-- C6 counterexample: lowering the rent estimate from 1000 to 0 lowers the
affordability score from 10 to 0, so the score is not monotonically
non-increasing over all estimates. -/
theorem affordability_monotone_cex :
    (0 : ℚ) < 1000 ∧ calculateAffordabilityScore 0 < calculateAffordabilityScore 1000 := by
  constructor
  · norm_num
  · norm_num [calculateAffordabilityScore, clamp]

/-- C6 amended: over positive rent estimates the affordability score is
monotonically non-increasing. -/
theorem affordability_score_antitone (r r2 : ℚ) (h0 : 0 < r2) (h : r2 < r) :
    calculateAffordabilityScore r ≤ calculateAffordabilityScore r2 := by
  have hr : 0 < r := h0.trans h
  unfold calculateAffordabilityScore clamp
  rw [if_neg (ne_of_gt hr), if_neg (ne_of_gt h0)]
  gcongr

/-- C6 witness for the amended theorem at rents 500 < 2000. -/
theorem affordability_score_antitone_witness :
    (0 : ℚ) < 500 ∧ (500 : ℚ) < 2000 ∧
      calculateAffordabilityScore 2000 ≤ calculateAffordabilityScore 500 :=
  ⟨by norm_num, by norm_num,
    affordability_score_antitone 2000 500 (by norm_num) (by norm_num)⟩

/-- C2: the rent estimate is `none` for fewer than 3 matches or any missing
rent among the first 3; with three rents present and distances floored at 0,
a zero distance sum gives the unweighted mean and otherwise the exact
barycentric weights (negative weights not clamped). -/
theorem expected_rent_spec (x1 x2 x3 : NeighborhoodMatch) (rest : List NeighborhoodMatch) :
    (∀ ml : List NeighborhoodMatch, ml.length < 3 → calculateExpectedRent ml = none) ∧
    ((x1.rent = none ∨ x2.rent = none ∨ x3.rent = none) →
      calculateExpectedRent (x1 :: x2 :: x3 :: rest) = none) ∧
    (∀ r1 r2 r3 : ℚ, x1.rent = some r1 → x2.rent = some r2 → x3.rent = some r3 →
      (max x1.distance 0 + max x2.distance 0 + max x3.distance 0 = 0 →
        calculateExpectedRent (x1 :: x2 :: x3 :: rest) = some ((r1 + r2 + r3) / 3)) ∧
      (max x1.distance 0 + max x2.distance 0 + max x3.distance 0 ≠ 0 →
        calculateExpectedRent (x1 :: x2 :: x3 :: rest) =
          some
            ((max x2.distance 0 + max x3.distance 0 - max x1.distance 0) /
                (max x1.distance 0 + max x2.distance 0 + max x3.distance 0) * r1 +
              (max x1.distance 0 + max x3.distance 0 - max x2.distance 0) /
                (max x1.distance 0 + max x2.distance 0 + max x3.distance 0) * r2 +
              (max x1.distance 0 + max x2.distance 0 - max x3.distance 0) /
                (max x1.distance 0 + max x2.distance 0 + max x3.distance 0) * r3))) := by
  refine ⟨?_, ?_, ?_⟩
  · intro ml hml
    rcases ml with _ | ⟨a, _ | ⟨b, _ | ⟨c, t⟩⟩⟩
    · rfl
    · rfl
    · rfl
    · simp only [List.length_cons] at hml; omega
  · intro hnone
    rcases hx1 : x1.rent with _ | r1 <;> rcases hx2 : x2.rent with _ | r2 <;>
      rcases hx3 : x3.rent with _ | r3 <;>
      simp_all [calculateExpectedRent]
  · intro r1 r2 r3 hx1 hx2 hx3
    constructor
    · intro hz
      simp only [calculateExpectedRent, hx1, hx2, hx3]
      rw [if_pos hz]
    · intro hz
      simp only [calculateExpectedRent, hx1, hx2, hx3]
      rw [if_neg hz]

/-- C2 witness: distances 1, 2, 3 and rents 300, 600, 900 give the weighted
estimate 400. -/
theorem expected_rent_spec_witness :
    calculateExpectedRent
      [⟨"a", 1, some 300⟩, ⟨"b", 2, some 600⟩, ⟨"c", 3, some 900⟩] = some 400 := by
  have h :=
    ((expected_rent_spec ⟨"a", 1, some 300⟩ ⟨"b", 2, some 600⟩ ⟨"c", 3, some 900⟩ []).2.2
      300 600 900 rfl rfl rfl).2 (by norm_num)
  rw [h]
  norm_num

theorem parseCsvLineAux_length (line : List Char) (inQuotes : Bool) (current : List Char)
    (result : List (List Char)) :
    (parseCsvLineAux line inQuotes current result).length =
      result.length + 1 + countUnquotedCommasAux line inQuotes := by
  induction line, inQuotes, current, result using parseCsvLineAux.induct with
  | case1 _ current result => simp [parseCsvLineAux, countUnquotedCommasAux]
  | case2 rest current result ih =>
    simpa [parseCsvLineAux, countUnquotedCommasAux] using ih
  | case3 rest inQuotes current result _ ih =>
    simpa [parseCsvLineAux, countUnquotedCommasAux] using ih
  | case4 rest current result ih =>
    simp [parseCsvLineAux, countUnquotedCommasAux, ih, List.length_append]
    omega
  | case5 c rest inQuotes current result _ _ _ ih =>
    simpa [parseCsvLineAux, countUnquotedCommasAux] using ih

/-- C7: with at most one non-empty line after BOM-strip and trim the tree
parser returns the empty collection; every line splits into exactly one more
field than it has unquoted commas; and the RFC4180-style quote handling is
exercised on a concrete line (doubled quote → literal quote, quoted comma
not a separator, trailing separator yields a final empty field). -/
theorem csv_parsing_spec :
    (∀ (parseNum : String → Option ℚ) (dist : ℚ → ℚ → ℚ → ℚ → ℚ)
      (axisConv : ℚ → ℕ → ℚ → ℚ) (csv : String)
      (neighborhoods : List NeighborhoodRecord) (rentLookup : String → Option ℚ),
      (csvLines csv).length ≤ 1 →
      parseTreeData parseNum dist axisConv csv neighborhoods rentLookup = []) ∧
    (∀ line : String,
      (parseCsvLine line).length = countUnquotedCommasAux line.data false + 1) ∧
    parseCsvLine "a,\"x\"\"y,z\"," = ["a", "x\"y,z", ""] := by
  refine ⟨?_, ?_, by decide⟩
  · intro parseNum dist axisConv csv neighborhoods rentLookup h
    unfold parseTreeData
    rcases hcl : csvLines csv with _ | ⟨a, _ | ⟨b, t⟩⟩
    · rfl
    · rfl
    · rw [hcl] at h; simp only [List.length_cons] at h; omega
  · intro line
    unfold parseCsvLine
    rw [List.length_map, parseCsvLineAux_length]
    simp [Nat.add_comm]

/-- C7 witness: a header-only input produces no records. -/
theorem csv_parsing_spec_witness :
    parseTreeData (fun _ => none) (fun _ _ _ _ => 0) (fun _ _ _ => 0)
      "tree_id,status,latitude,longitude" [] (fun _ => none) = [] :=
  csv_parsing_spec.1 (fun _ => none) (fun _ _ _ _ => 0) (fun _ _ _ => 0)
    "tree_id,status,latitude,longitude" [] (fun _ => none) (by decide)

theorem jsCharToLower_idem (c : Char) : jsCharToLower (jsCharToLower c) = jsCharToLower c := by
  by_cases h : (65 ≤ c.toNat && c.toNat ≤ 90) = true
  · have h1 : jsCharToLower c = Char.ofNat (c.toNat + 32) := by
      unfold jsCharToLower; rw [if_pos h]
    rw [h1]
    obtain ⟨h65, h90⟩ : 65 ≤ c.toNat ∧ c.toNat ≤ 90 := by simpa using h
    generalize hgen : c.toNat = n at h65 h90 ⊢
    interval_cases n <;> decide
  · have h1 : jsCharToLower c = c := by unfold jsCharToLower; rw [if_neg h]
    rw [h1, h1]

theorem isJsSpace_jsCharToLower (c : Char) : isJsSpace (jsCharToLower c) = isJsSpace c := by
  by_cases h : (65 ≤ c.toNat && c.toNat ≤ 90) = true
  · have h1 : jsCharToLower c = Char.ofNat (c.toNat + 32) := by
      unfold jsCharToLower; rw [if_pos h]
    rw [h1]
    obtain ⟨h65, h90⟩ : 65 ≤ c.toNat ∧ c.toNat ≤ 90 := by simpa using h
    unfold isJsSpace
    generalize hgen : c.toNat = n at h65 h90 ⊢
    interval_cases n <;> decide
  · rw [show jsCharToLower c = c by unfold jsCharToLower; rw [if_neg h]]

theorem jsCharToLower_not_upper (c : Char) :
    ¬(65 ≤ (jsCharToLower c).toNat ∧ (jsCharToLower c).toNat ≤ 90) := by
  by_cases h : (65 ≤ c.toNat && c.toNat ≤ 90) = true
  · have h1 : jsCharToLower c = Char.ofNat (c.toNat + 32) := by
      unfold jsCharToLower; rw [if_pos h]
    rw [h1]
    obtain ⟨h65, h90⟩ : 65 ≤ c.toNat ∧ c.toNat ≤ 90 := by simpa using h
    generalize hgen : c.toNat = n at h65 h90 ⊢
    interval_cases n <;> decide
  · have h1 : jsCharToLower c = c := by unfold jsCharToLower; rw [if_neg h]
    rw [h1]
    intro hc
    apply h
    simp only [Bool.and_eq_true, decide_eq_true_eq]
    exact hc

/-- Adjacent characters are not both whitespace. -/
def noTwoSpaces (a b : Char) : Prop := isJsSpace a = false ∨ isJsSpace b = false

/-- The invariant enjoyed by the output of the whitespace-collapsing regexp:
every whitespace character is a plain space, and no two adjacent characters
are both whitespace. -/
def SpacesCollapsed (l : List Char) : Prop :=
  (∀ c ∈ l, isJsSpace c = true → c = ' ') ∧ List.Chain' noTwoSpaces l

theorem collapseAux_mem (l : List Char) :
    ∀ (b : Bool), ∀ d ∈ collapseAux b l, d = ' ' ∨ isJsSpace d = false := by
  induction l with
  | nil => intro b d hd; simp [collapseAux] at hd
  | cons c cs ih =>
    intro b d hd
    by_cases hc : isJsSpace c = true
    · cases b with
      | true =>
        rw [collapseAux, if_pos hc, if_pos rfl] at hd
        exact ih true d hd
      | false =>
        rw [collapseAux, if_pos hc] at hd
        simp only [Bool.false_eq_true, if_false, List.mem_cons] at hd
        rcases hd with hd | hd
        · exact Or.inl hd
        · exact ih true d hd
    · rw [collapseAux, if_neg hc] at hd
      rcases List.mem_cons.mp hd with hd | hd
      · exact Or.inr (hd ▸ by simpa using hc)
      · exact ih false d hd

theorem collapseAux_true_head (l : List Char) :
    ∀ d ∈ (collapseAux true l).head?, isJsSpace d = false := by
  induction l with
  | nil => intro d hd; simp [collapseAux] at hd
  | cons c cs ih =>
    intro d hd
    by_cases hc : isJsSpace c = true
    · rw [collapseAux, if_pos hc, if_pos rfl] at hd
      exact ih d hd
    · rw [collapseAux, if_neg hc] at hd
      simp only [List.head?_cons, Option.mem_some_iff] at hd
      subst hd
      simpa using hc

theorem collapseAux_chain (l : List Char) :
    ∀ (b : Bool), List.Chain' noTwoSpaces (collapseAux b l) := by
  induction l with
  | nil => intro b; simp [collapseAux]
  | cons c cs ih =>
    intro b
    by_cases hc : isJsSpace c = true
    · cases b with
      | true => rw [collapseAux, if_pos hc, if_pos rfl]; exact ih true
      | false =>
        rw [collapseAux, if_pos hc]
        simp only [Bool.false_eq_true, if_false]
        rw [List.chain'_cons']
        exact ⟨fun y hy => Or.inr (collapseAux_true_head cs y hy), ih true⟩
    · rw [collapseAux, if_neg hc]
      rw [List.chain'_cons']
      exact ⟨fun y _ => Or.inl (by simpa using hc), ih false⟩

theorem collapse_fixpoint (l : List Char) (h : SpacesCollapsed l) : collapseSpaces l = l := by
  obtain ⟨hmem, hchain⟩ := h
  unfold collapseSpaces
  induction l with
  | nil => rfl
  | cons c cs ih =>
    by_cases hc : isJsSpace c = true
    · have hcsp : c = ' ' := hmem c (List.mem_cons_self c cs) hc
      rw [collapseAux, if_pos hc]
      simp only [Bool.false_eq_true, if_false]
      have htail : collapseAux false cs = cs :=
        ih (fun d hd => hmem d (List.mem_cons_of_mem c hd)) hchain.tail
      cases cs with
      | nil => rw [show collapseAux true ([] : List Char) = [] from rfl, hcsp]
      | cons d cs2 =>
        have hd : isJsSpace d = false := by
          rcases (List.chain'_cons'.mp hchain).1 d (by simp) with hne | hne
          · rw [hc] at hne; cases hne
          · exact hne
        have hdt : isJsSpace d = true → False := by simp [hd]
        rw [collapseAux, if_neg hdt]
        rw [collapseAux, if_neg hdt] at htail
        rw [List.cons.injEq] at htail
        rw [htail.2, hcsp]
    · rw [collapseAux, if_neg hc]
      have htail : collapseAux false cs = cs :=
        ih (fun d hd => hmem d (List.mem_cons_of_mem c hd)) hchain.tail
      rw [htail]

/-- No whitespace at either end. -/
def TrimmedEnds (l : List Char) : Prop :=
  (∀ x ∈ l.head?, isJsSpace x = false) ∧ (∀ x ∈ l.getLast?, isJsSpace x = false)

theorem dropWhile_head_not {p : Char → Bool} (l : List Char) :
    ∀ x ∈ (l.dropWhile p).head?, p x = false := by
  induction l with
  | nil => intro x hx; simp at hx
  | cons c cs ih =>
    intro x hx
    by_cases hc : p c = true
    · rw [List.dropWhile_cons, if_pos hc] at hx
      exact ih x hx
    · rw [List.dropWhile_cons, if_neg hc] at hx
      simp only [List.head?_cons, Option.mem_some_iff] at hx
      subst hx
      simpa using hc

theorem dropWhile_eq_self_of_head {p : Char → Bool} (l : List Char)
    (h : ∀ x ∈ l.head?, p x = false) : l.dropWhile p = l := by
  cases l with
  | nil => rfl
  | cons c cs =>
    have hc : p c = false := h c (by simp)
    rw [List.dropWhile_cons, if_neg (by simp [hc])]

theorem jsTrimChars_front (l : List Char) : jsTrimChars l <+: l.dropWhile isJsSpace := by
  unfold jsTrimChars
  apply List.reverse_suffix.mp
  rw [List.reverse_reverse]
  exact List.dropWhile_suffix _

theorem jsTrimChars_within (l : List Char) : jsTrimChars l <:+: l :=
  ((jsTrimChars_front l).isInfix).trans ((List.dropWhile_suffix _).isInfix)

theorem head?_of_isPrefix {l₁ l₂ : List Char} (h : l₁ <+: l₂) (hne : l₁ ≠ []) :
    l₁.head? = l₂.head? := by
  obtain ⟨t, rfl⟩ := h
  cases l₁ with
  | nil => exact absurd rfl hne
  | cons c cs => rfl

theorem jsTrimChars_trimmed (l : List Char) : TrimmedEnds (jsTrimChars l) := by
  constructor
  · intro x hx
    have hne : jsTrimChars l ≠ [] := by
      intro he; rw [he] at hx; simp at hx
    rw [head?_of_isPrefix (jsTrimChars_front l) hne] at hx
    exact dropWhile_head_not l x hx
  · intro x hx
    rw [← List.head?_reverse] at hx
    have : (jsTrimChars l).reverse = (l.dropWhile isJsSpace).reverse.dropWhile isJsSpace := by
      unfold jsTrimChars; rw [List.reverse_reverse]
    rw [this] at hx
    exact dropWhile_head_not _ x hx

theorem jsTrimChars_eq_self (l : List Char) (h : TrimmedEnds l) : jsTrimChars l = l := by
  obtain ⟨hh, hl⟩ := h
  unfold jsTrimChars
  rw [dropWhile_eq_self_of_head l hh]
  rw [dropWhile_eq_self_of_head l.reverse (by rw [List.head?_reverse]; exact hl)]
  exact List.reverse_reverse l

theorem jsTrimChars_idem (l : List Char) : jsTrimChars (jsTrimChars l) = jsTrimChars l :=
  jsTrimChars_eq_self _ (jsTrimChars_trimmed l)

theorem spacesCollapsed_of_sub {l₁ l₂ : List Char} (h : l₁ <:+: l₂)
    (hc : SpacesCollapsed l₂) : SpacesCollapsed l₁ := by
  refine ⟨fun c hc2 => hc.1 c (h.subset hc2), ?_⟩
  obtain ⟨s, t, rfl⟩ := h
  have h2 := hc.2
  rw [List.append_assoc] at h2
  exact h2.right_of_append.left_of_append

theorem spacesCollapsed_collapse (l : List Char) : SpacesCollapsed (collapseSpaces l) :=
  ⟨fun c hcm hcw => (collapseAux_mem l false c hcm).resolve_right (by simp [hcw]),
    collapseAux_chain l false⟩

theorem spacesCollapsed_map_lower {l : List Char} (h : SpacesCollapsed l) :
    SpacesCollapsed (l.map jsCharToLower) := by
  constructor
  · intro c hcm hcw
    obtain ⟨d, hd, rfl⟩ := List.mem_map.mp hcm
    rw [isJsSpace_jsCharToLower] at hcw
    rw [h.1 d hd hcw]
    decide
  · rw [List.chain'_map]
    apply List.Chain'.imp ?_ h.2
    intro a b hab
    unfold noTwoSpaces at hab ⊢
    rw [isJsSpace_jsCharToLower, isJsSpace_jsCharToLower]
    exact hab

theorem trimmedEnds_map_lower {l : List Char} (h : TrimmedEnds l) :
    TrimmedEnds (l.map jsCharToLower) := by
  constructor
  · intro x hx
    rw [List.head?_map] at hx
    obtain ⟨d, hd, rfl⟩ := Option.map_eq_some'.mp (Option.mem_def.mp hx)
    rw [isJsSpace_jsCharToLower]
    exact h.1 d hd
  · intro x hx
    rw [List.getLast?_map] at hx
    obtain ⟨d, hd, rfl⟩ := Option.map_eq_some'.mp (Option.mem_def.mp hx)
    rw [isJsSpace_jsCharToLower]
    exact h.2 d hd

theorem string_mk_data (s : String) : String.mk s.data = s := rfl

theorem normalizeNeighborhoodName_of_fixed {t : String} (hcol : SpacesCollapsed t.data)
    (htr : TrimmedEnds t.data) (hne : t ≠ "") : normalizeNeighborhoodName t = t := by
  unfold normalizeNeighborhoodName
  rw [show collapseSpaces t.data = t.data from collapse_fixpoint _ hcol]
  rw [jsTrimChars_eq_self _ htr, string_mk_data]
  rw [if_neg hne]

theorem normalizeNeighborhoodName_idem (s : String) :
    normalizeNeighborhoodName (normalizeNeighborhoodName s) = normalizeNeighborhoodName s := by
  by_cases h : String.mk (jsTrimChars (collapseSpaces s.data)) = ""
  · have h1 : normalizeNeighborhoodName s = "Unknown" := by
      unfold normalizeNeighborhoodName; rw [if_pos h]
    rw [h1]
    decide
  · have h1 : normalizeNeighborhoodName s = String.mk (jsTrimChars (collapseSpaces s.data)) := by
      unfold normalizeNeighborhoodName; rw [if_neg h]
    rw [h1]
    apply normalizeNeighborhoodName_of_fixed
    · exact spacesCollapsed_of_sub (jsTrimChars_within _) (spacesCollapsed_collapse _)
    · exact jsTrimChars_trimmed _
    · exact h

theorem data_jsToLower (s : String) : (jsToLower s).data = s.data.map jsCharToLower := rfl

theorem jsToLower_ne_empty {s : String} (h : s ≠ "") : jsToLower s ≠ "" := by
  intro hk
  apply h
  have hd : s.data.map jsCharToLower = [] := by
    rw [← data_jsToLower, hk]
  rcases s with ⟨l⟩
  cases l with
  | nil => rfl
  | cons c cs => simp at hd

theorem jsToLower_ne_Unknown (s : String) : jsToLower s ≠ "Unknown" := by
  intro hk
  have hd : s.data.map jsCharToLower = "Unknown".data := by rw [← data_jsToLower, hk]
  cases hl : s.data with
  | nil => rw [hl] at hd; simp at hd
  | cons c cs =>
    rw [hl] at hd
    have hu : jsCharToLower c = 'U' := by
      have := congrArg List.head? hd
      simpa using this
    have h85 : (jsCharToLower c).toNat = 85 := by rw [hu]; decide
    exact jsCharToLower_not_upper c (by rw [h85]; exact ⟨by norm_num, by norm_num⟩)

theorem jsToLower_idem (s : String) : jsToLower (jsToLower s) = jsToLower s := by
  rcases s with ⟨l⟩
  show String.mk ((l.map jsCharToLower).map jsCharToLower) = String.mk (l.map jsCharToLower)
  rw [List.map_map]
  congr 1
  apply List.map_congr_left
  intro a _
  exact jsCharToLower_idem a

theorem normalizeRentKey_idem (s : String) :
    normalizeRentKey (normalizeRentKey s) = normalizeRentKey s := by
  by_cases h : normalizeNeighborhoodName s = "" ∨ normalizeNeighborhoodName s = "Unknown"
  · have h1 : normalizeRentKey s = "" := by unfold normalizeRentKey; rw [if_pos h]
    rw [h1]
    decide
  · have h1 : normalizeRentKey s = rentKeyAlias (jsToLower (normalizeNeighborhoodName s)) := by
      unfold normalizeRentKey; rw [if_neg h]
    push_neg at h
    obtain ⟨hne, hunk⟩ := h
    have hnd : normalizeNeighborhoodName s = String.mk (jsTrimChars (collapseSpaces s.data)) := by
      by_cases hif : String.mk (jsTrimChars (collapseSpaces s.data)) = ""
      · exfalso
        apply hunk
        unfold normalizeNeighborhoodName
        rw [if_pos hif]
      · unfold normalizeNeighborhoodName
        rw [if_neg hif]
    have hcoln : SpacesCollapsed (normalizeNeighborhoodName s).data := by
      rw [hnd]
      exact spacesCollapsed_of_sub (jsTrimChars_within _) (spacesCollapsed_collapse _)
    have htrn : TrimmedEnds (normalizeNeighborhoodName s).data := by
      rw [hnd]
      exact jsTrimChars_trimmed _
    rw [h1]
    by_cases ha1 : jsToLower (normalizeNeighborhoodName s) = "gramecy park"
    · rw [ha1]
      decide
    · by_cases ha2 : jsToLower (normalizeNeighborhoodName s) = "stuyvesant town"
      · rw [ha2]
        decide
      · have h2 : rentKeyAlias (jsToLower (normalizeNeighborhoodName s)) =
            jsToLower (normalizeNeighborhoodName s) := by
          unfold rentKeyAlias; rw [if_neg ha1, if_neg ha2]
        rw [h2]
        have hkcol : SpacesCollapsed (jsToLower (normalizeNeighborhoodName s)).data := by
          rw [data_jsToLower]
          exact spacesCollapsed_map_lower hcoln
        have hktr : TrimmedEnds (jsToLower (normalizeNeighborhoodName s)).data := by
          rw [data_jsToLower]
          exact trimmedEnds_map_lower htrn
        have hkne : jsToLower (normalizeNeighborhoodName s) ≠ "" := jsToLower_ne_empty hne
        unfold normalizeRentKey
        rw [normalizeNeighborhoodName_of_fixed hkcol hktr hkne]
        rw [if_neg (by
          push_neg
          exact ⟨hkne, jsToLower_ne_Unknown _⟩)]
        rw [jsToLower_idem]
        unfold rentKeyAlias
        rw [if_neg ha1, if_neg ha2]

/-- C8: both rent-key normalization and area-name normalization are
idempotent on every string, including the alias table and the
empty-to-"Unknown" sentinel cases. -/
theorem normalization_idempotent (x : String) :
    normalizeRentKey (normalizeRentKey x) = normalizeRentKey x ∧
    normalizeNeighborhoodName (normalizeNeighborhoodName x) = normalizeNeighborhoodName x :=
  ⟨normalizeRentKey_idem x, normalizeNeighborhoodName_idem x⟩

theorem clamp_eq_self {v lo hi : ℚ} (h1 : lo ≤ v) (h2 : v ≤ hi) : clamp v lo hi = v := by
  unfold clamp
  rw [max_eq_left h1, min_eq_left h2]

theorem calculateHealthScore_of_dead {t : TreeRecord} (h : jsToLower t.status = "dead") :
    calculateHealthScore t = 0 := by
  unfold calculateHealthScore
  rw [if_pos (Or.inr h)]

theorem calculateHealthScore_of_stump {t : TreeRecord} (h : jsToLower t.status = "stump") :
    calculateHealthScore t = 0 := by
  unfold calculateHealthScore
  rw [if_pos (Or.inl h)]

theorem assignAccessibilityScores_getElem (trees : List TreeRecord) (i : ℕ) (t : TreeRecord)
    (ht : trees[i]? = some t) :
    (assignAccessibilityScores trees)[i]? =
      some { t with
             accessibilityScore :=
               some (if jsToLower (jsTrimString t.status) = "dead" then 0
                 else normalizeTreeFriendsScore t.treeFriendsScore +
                   normalizeAffordabilityScore t.affordabilityScore +
                   calculateHealthScore t) } := by
  unfold assignAccessibilityScores
  rw [List.getElem?_map, ht]
  rfl

/-- C4: a point with (trimmed) status "dead" case-insensitively gets composite
score 0 and health score 0 regardless of its other scores; otherwise, for a
density score in [0,10], the composite equals
density/10·4 + clamp(scalar)/10·4 + health, lies in [0,11], and is written
back without further clamping. -/
theorem accessibility_score_spec (trees : List TreeRecord) (i : ℕ) (t : TreeRecord)
    (ht : trees[i]? = some t) (htrim : jsTrimString t.status = t.status) :
    (jsToLower t.status = "dead" →
      (assignAccessibilityScores trees)[i]? =
        some { t with accessibilityScore := some 0 } ∧ calculateHealthScore t = 0) ∧
    (jsToLower t.status ≠ "dead" → 0 ≤ t.treeFriendsScore → t.treeFriendsScore ≤ 10 →
      (assignAccessibilityScores trees)[i]? =
        some { t with
               accessibilityScore :=
                 some (t.treeFriendsScore / 10 * 4 +
                   clamp (t.affordabilityScore.getD 0) 0 10 / 10 * 4 +
                   calculateHealthScore t) } ∧
      0 ≤ t.treeFriendsScore / 10 * 4 +
          clamp (t.affordabilityScore.getD 0) 0 10 / 10 * 4 + calculateHealthScore t ∧
      t.treeFriendsScore / 10 * 4 +
          clamp (t.affordabilityScore.getD 0) 0 10 / 10 * 4 + calculateHealthScore t ≤ 11) := by
  have hmap := assignAccessibilityScores_getElem trees i t ht
  rw [htrim] at hmap
  constructor
  · intro hdead
    rw [hmap, if_pos hdead]
    exact ⟨rfl, calculateHealthScore_of_dead hdead⟩
  · intro hnd h0 h10
    have hnorm : normalizeTreeFriendsScore t.treeFriendsScore = t.treeFriendsScore / 10 * 4 := by
      unfold normalizeTreeFriendsScore
      rw [clamp_eq_self h0 h10]
    have haff : normalizeAffordabilityScore t.affordabilityScore =
        clamp (t.affordabilityScore.getD 0) 0 10 / 10 * 4 := by
      cases t.affordabilityScore with
      | none =>
        unfold normalizeAffordabilityScore
        norm_num [clamp]
      | some a => rfl
    refine ⟨by rw [hmap, if_neg hnd, hnorm, haff], ?_, ?_⟩
    · have hb1 : 0 ≤ t.treeFriendsScore / 10 * 4 := by positivity
      have hb2 := normalizeAffordabilityScore_bounds t.affordabilityScore
      rw [haff] at hb2
      have hb3 := calculateHealthScore_bounds t
      linarith [hb1, hb2.1, hb3.1]
    · have hb1 : t.treeFriendsScore / 10 * 4 ≤ 4 := by linarith
      have hb2 := normalizeAffordabilityScore_bounds t.affordabilityScore
      rw [haff] at hb2
      have hb3 := calculateHealthScore_bounds t
      linarith [hb1, hb2.2, hb3.2]

/-- A "Dead" sample record with nonzero density and scalar scores. -/
def deadSample : TreeRecord :=
  { treeId := "1", status := "Dead", sidewalk := "Damage", problems := "Stones",
    latitude := 0, longitude := 0, neighborhood := "x", species := "oak",
    treeFriendsScore := 7, affordabilityScore := some 3, accessibilityScore := none }

/-- C4 witness: a "Dead" record with nonzero density and scalar scores still
gets composite 0 and health 0. -/
theorem accessibility_score_spec_witness :
    (assignAccessibilityScores [deadSample])[0]? =
      some { deadSample with accessibilityScore := some 0 } ∧
    calculateHealthScore deadSample = 0 :=
  (accessibility_score_spec [deadSample] 0 deadSample rfl (by decide)).1 (by decide)

/-- C10: a (trimmed) "stump" point has health score 0 yet its composite score
is not forced to 0: it equals the normalized density plus normalized scalar
contributions, which total at most 8. -/
theorem stump_composite_spec (trees : List TreeRecord) (i : ℕ) (t : TreeRecord)
    (ht : trees[i]? = some t) (htrim : jsTrimString t.status = t.status)
    (hstump : jsToLower t.status = "stump") :
    calculateHealthScore t = 0 ∧
    (assignAccessibilityScores trees)[i]? =
      some { t with
             accessibilityScore :=
               some (normalizeTreeFriendsScore t.treeFriendsScore +
                 normalizeAffordabilityScore t.affordabilityScore) } ∧
    normalizeTreeFriendsScore t.treeFriendsScore +
      normalizeAffordabilityScore t.affordabilityScore ≤ 8 := by
  have hh := calculateHealthScore_of_stump hstump
  have hmap := assignAccessibilityScores_getElem trees i t ht
  rw [htrim] at hmap
  have hnd : jsToLower t.status ≠ "dead" := by rw [hstump]; decide
  refine ⟨hh, ?_, ?_⟩
  · rw [hmap, if_neg hnd, hh, add_zero]
  · have hb1 := normalizeTreeFriendsScore_bounds t.treeFriendsScore
    have hb2 := normalizeAffordabilityScore_bounds t.affordabilityScore
    linarith [hb1.2, hb2.2]

/-- A "Stump" sample record with density 10 and scalar estimate 5. -/
def stumpSample : TreeRecord :=
  { treeId := "2", status := "Stump", sidewalk := "NoDamage", problems := "None",
    latitude := 0, longitude := 0, neighborhood := "x", species := "oak",
    treeFriendsScore := 10, affordabilityScore := some 5, accessibilityScore := none }

/-- C10 witness: a "Stump" record with density 10 and scalar estimate 5 gets
composite 4 + 2 = 6, not 0. -/
theorem stump_composite_spec_witness :
    calculateHealthScore stumpSample = 0 ∧
    (assignAccessibilityScores [stumpSample])[0]? =
      some { stumpSample with
             accessibilityScore :=
               some (normalizeTreeFriendsScore stumpSample.treeFriendsScore +
                 normalizeAffordabilityScore stumpSample.affordabilityScore) } ∧
    normalizeTreeFriendsScore stumpSample.treeFriendsScore +
      normalizeAffordabilityScore stumpSample.affordabilityScore ≤ 8 :=
  stump_composite_spec [stumpSample] 0 stumpSample rfl (by decide) (by decide)

theorem buildKdTree_ne_leaf {α : Type} [LinearOrder α] (points : List (IdxPoint α))
    (depth : ℕ) (h : points ≠ []) : buildKdTree points depth ≠ KdTree.leaf := by
  rcases hp : points with _ | ⟨p, rest⟩
  · exact absurd hp h
  · rw [buildKdTree]
    split
    · rename_i heq
      exfalso
      rw [List.getElem?_eq_none_iff] at heq
      rw [length_sortByKey] at heq
      simp only [List.length_cons] at heq
      omega
    · intro hcontra
      cases hcontra

theorem buildKdTree_singleton {α : Type} [LinearOrder α] (p : IdxPoint α) (depth : ℕ) :
    buildKdTree [p] depth = KdTree.node p (depth % 2) KdTree.leaf KdTree.leaf := by
  rw [buildKdTree]
  simp [sortByKey, insertSortedBy, buildKdTree]


theorem treePoints_length (trees : List TreeRecord) :
    (treePoints trees).length = trees.length := by
  simp [treePoints]

/-- The density score `assignTreeFriendsScores` writes back, as a function of
the query result (the empty list is the `+Infinity` average, scored 10). -/
def scoreOfDistances (ds : List ℚ) : ℚ :=
  match ds with
  | [] => 10
  | ds2 => getTreeFriendsScore (ds2.sum / (ds2.length : ℚ))

theorem findK_singleton (dist : ℚ → ℚ → ℚ → ℚ → ℚ) (axisConv : ℚ → ℕ → ℚ → ℚ)
    (q q2 : ℚ) (k : ℕ) :
    findKNearestNeighborDistances dist axisConv
      (KdTree.node ⟨q, q2, 0⟩ 0 KdTree.leaf KdTree.leaf) ⟨q, q2, 0⟩ k = [] := by
  unfold findKNearestNeighborDistances
  unfold searchKd
  simp [lt_irrefl, searchKd]

theorem assignTreeFriendsScores_singleton (dist : ℚ → ℚ → ℚ → ℚ → ℚ)
    (axisConv : ℚ → ℕ → ℚ → ℚ) (u : TreeRecord) :
    assignTreeFriendsScores dist axisConv [u] 5 = [{ u with treeFriendsScore := 10 }] := by
  have hb1 := buildKdTree_singleton (α := ℚ) ⟨u.latitude, u.longitude, 0⟩ 0
  unfold assignTreeFriendsScores
  rw [show treePoints [u] = [⟨u.latitude, u.longitude, 0⟩] from rfl, hb1]
  rw [if_neg (by simp)]
  rw [show (0 : ℕ) % 2 = 0 from rfl]
  rw [show ([u].enum) = [(0, u)] from rfl]
  simp only [List.map]
  rw [findK_singleton]

/-- C3: the density score written back for point `i` is exactly 10 when the
index query returns no neighbors or an average below 2 (hence also for any
non-positive average), and `clamp (10 - 0.12*(avg-2)) 0 10` otherwise, where
`avg` is the mean of the `k = 5` query distances; moreover a singleton
dataset always gets density score exactly 10. -/
theorem treeFriends_score_spec (dist : ℚ → ℚ → ℚ → ℚ → ℚ) (axisConv : ℚ → ℕ → ℚ → ℚ)
    (trees : List TreeRecord) (i : ℕ) (t : TreeRecord) (ht : trees[i]? = some t)
    (nds : List ℚ)
    (hnds : nds = findKNearestNeighborDistances dist axisConv
      (buildKdTree (treePoints trees) 0) ⟨t.latitude, t.longitude, i⟩ 5) :
    (nds = [] →
      ((assignTreeFriendsScores dist axisConv trees 5)[i]?).map TreeRecord.treeFriendsScore =
        some 10) ∧
    (nds ≠ [] → nds.sum / (nds.length : ℚ) < 2 →
      ((assignTreeFriendsScores dist axisConv trees 5)[i]?).map TreeRecord.treeFriendsScore =
        some 10) ∧
    (nds ≠ [] → 2 ≤ nds.sum / (nds.length : ℚ) →
      ((assignTreeFriendsScores dist axisConv trees 5)[i]?).map TreeRecord.treeFriendsScore =
        some (clamp (10 - 0.12 * (nds.sum / (nds.length : ℚ) - 2)) 0 10)) ∧
    (∀ u : TreeRecord, assignTreeFriendsScores dist axisConv [u] 5 =
      [{ u with treeFriendsScore := 10 }]) := by
  have hne : trees ≠ [] := by
    intro he
    subst he
    simp at ht
  have hpne : treePoints trees ≠ [] := by
    intro he
    apply hne
    have := treePoints_length trees
    rw [he] at this
    simpa using this.symm
  have hb := buildKdTree_ne_leaf (treePoints trees) 0 hpne
  rcases hroot : buildKdTree (treePoints trees) 0 with _ | ⟨p, ax, l, r⟩
  · exact absurd hroot hb
  rw [hroot] at hnds
  have hmain : (assignTreeFriendsScores dist axisConv trees 5)[i]? =
      some { t with treeFriendsScore :=
        scoreOfDistances (findKNearestNeighborDistances dist axisConv
          (KdTree.node p ax l r) ⟨t.latitude, t.longitude, i⟩ 5) } := by
    unfold assignTreeFriendsScores
    rw [hroot]
    rw [if_neg (by simp [List.isEmpty_iff, hne])]
    rw [List.getElem?_map, List.getElem?_enum, ht]
    rfl
  refine ⟨?_, ?_, ?_, ?_⟩
  · intro h0
    rw [hmain, ← hnds, h0]
    rfl
  · intro hne2 hlt
    rw [hmain, ← hnds]
    cases nds with
    | nil => exact absurd rfl hne2
    | cons d ds =>
      simp only [Option.map_some']
      congr 1
      show getTreeFriendsScore ((d :: ds).sum / ((d :: ds).length : ℚ)) = 10
      unfold getTreeFriendsScore
      split_ifs <;> rfl
  · intro hne2 hge
    rw [hmain, ← hnds]
    cases nds with
    | nil => exact absurd rfl hne2
    | cons d ds =>
      simp only [Option.map_some']
      congr 1
      show getTreeFriendsScore ((d :: ds).sum / ((d :: ds).length : ℚ)) =
        clamp (10 - 0.12 * ((d :: ds).sum / ((d :: ds).length : ℚ) - 2)) 0 10
      unfold getTreeFriendsScore
      split_ifs with h1 h2
      · exact absurd hge (by simp only [List.length_cons] at h1 ⊢; linarith)
      · exact absurd hge (by push_neg; exact h2)
      · rfl
  · intro u
    exact assignTreeFriendsScores_singleton dist axisConv u

/-- A sample record for the density-score witness. -/
def soloSample : TreeRecord :=
  { treeId := "3", status := "Alive", sidewalk := "NoDamage", problems := "None",
    latitude := 1, longitude := 2, neighborhood := "x", species := "oak",
    treeFriendsScore := 0, affordabilityScore := none, accessibilityScore := none }

/-- C3 witness: a dataset holding a single point gets density score exactly
10 through the scoring pass. -/
theorem treeFriends_score_spec_witness :
    assignTreeFriendsScores (fun _ _ _ _ => 0) (fun _ _ _ => 0) [soloSample] 5 =
      [{ soloSample with treeFriendsScore := 10 }] :=
  (treeFriends_score_spec (fun _ _ _ _ => 0) (fun _ _ _ => 0) [soloSample] 0 soloSample rfl
    (findKNearestNeighborDistances (fun _ _ _ _ => 0) (fun _ _ _ => 0)
      (buildKdTree (treePoints [soloSample]) 0)
      ⟨soloSample.latitude, soloSample.longitude, 0⟩ 5) rfl).2.2.2 soloSample

theorem scoreOfDistances_bounds (ds : List ℚ) :
    0 ≤ scoreOfDistances ds ∧ scoreOfDistances ds ≤ 10 := by
  cases ds with
  | nil => exact ⟨by norm_num [scoreOfDistances], by norm_num [scoreOfDistances]⟩
  | cons d ds2 => exact getTreeFriendsScore_bounds _

theorem mem_assignAccessibilityScores {l : List TreeRecord} {t : TreeRecord}
    (h : t ∈ assignAccessibilityScores l) :
    ∃ t0 ∈ l, t = { t0 with
                    accessibilityScore :=
                      some (if jsToLower (jsTrimString t0.status) = "dead" then 0
                        else normalizeTreeFriendsScore t0.treeFriendsScore +
                          normalizeAffordabilityScore t0.affordabilityScore +
                          calculateHealthScore t0) } := by
  unfold assignAccessibilityScores at h
  obtain ⟨t0, ht0, heq⟩ := List.mem_map.mp h
  refine ⟨t0, ht0, ?_⟩
  rw [← heq]

theorem mem_assignTreeFriendsScores {dist : ℚ → ℚ → ℚ → ℚ → ℚ}
    {axisConv : ℚ → ℕ → ℚ → ℚ} {l : List TreeRecord} {k : ℕ} {t : TreeRecord}
    (h : t ∈ assignTreeFriendsScores dist axisConv l k) :
    ∃ t0 ∈ l, t.latitude = t0.latitude ∧ t.longitude = t0.longitude ∧
      t.status = t0.status ∧ t.affordabilityScore = t0.affordabilityScore ∧
      t.accessibilityScore = t0.accessibilityScore ∧
      (t.treeFriendsScore = t0.treeFriendsScore ∨
        (0 ≤ t.treeFriendsScore ∧ t.treeFriendsScore ≤ 10)) := by
  unfold assignTreeFriendsScores at h
  split_ifs at h with hemp
  · exact ⟨t, h, rfl, rfl, rfl, rfl, rfl, Or.inl rfl⟩
  · rcases hroot : buildKdTree (treePoints l) 0 with _ | ⟨p, ax, lc, rc⟩
    · rw [hroot] at h
      exact ⟨t, h, rfl, rfl, rfl, rfl, rfl, Or.inl rfl⟩
    · rw [hroot] at h
      obtain ⟨pr, hmem, heq⟩ := List.mem_map.mp h
      obtain ⟨i, t0⟩ := pr
      have hm := List.mem_enum hmem
      have ht0 : t0 ∈ l := by
        rw [hm.2]
        exact List.getElem_mem hm.1
      refine ⟨t0, ht0, ?_⟩
      rw [← heq]
      refine ⟨rfl, rfl, rfl, rfl, rfl, Or.inr ?_⟩
      exact scoreOfDistances_bounds (findKNearestNeighborDistances dist axisConv
        (KdTree.node p ax lc rc) ⟨t0.latitude, t0.longitude, i⟩ k)

theorem parseTreeRow_eq_some {parseNum : String → Option ℚ} {dist : ℚ → ℚ → ℚ → ℚ → ℚ}
    {neighborhoods : List NeighborhoodRecord} {rentLookup : String → Option ℚ}
    {headers : List String} {line : String} {t0 : TreeRecord}
    (h : parseTreeRow parseNum dist neighborhoods rentLookup headers line = some t0) :
    numField parseNum headers (parseCsvLine line) "latitude" = some t0.latitude ∧
    numField parseNum headers (parseCsvLine line) "longitude" = some t0.longitude ∧
    t0.treeFriendsScore = 0 ∧
    (t0.affordabilityScore = none ∨
      ∃ r, t0.affordabilityScore = some (calculateAffordabilityScore r)) := by
  unfold parseTreeRow at h
  rcases hlat : numField parseNum headers (parseCsvLine line) "latitude" with _ | la
  · simp [hlat] at h
  rcases hlng : numField parseNum headers (parseCsvLine line) "longitude" with _ | lo
  · simp [hlat, hlng] at h
  simp only [hlat, hlng, Option.some.injEq] at h
  subst h
  refine ⟨rfl, rfl, rfl, ?_⟩
  rcases hrent : calculateExpectedRent (getClosestNeighborhoodMatches dist la lo
      neighborhoods rentLookup 3) with _ | r
  · exact Or.inl rfl
  · exact Or.inr ⟨r, rfl⟩

/-- C9: every record surviving the full pipeline carries coordinates that
parsed to finite numbers from its CSV row (non-finite rows are dropped), a
density score in [0,10], a scalar score that is null or in [0,10], and a
non-null composite score in [0,11]. -/
theorem pipeline_invariant (parseNum : String → Option ℚ) (dist : ℚ → ℚ → ℚ → ℚ → ℚ)
    (axisConv : ℚ → ℕ → ℚ → ℚ) (csv : String) (neighborhoods : List NeighborhoodRecord)
    (rentLookup : String → Option ℚ) (t : TreeRecord)
    (ht : t ∈ parseTreeData parseNum dist axisConv csv neighborhoods rentLookup) :
    (0 ≤ t.treeFriendsScore ∧ t.treeFriendsScore ≤ 10) ∧
    (∀ a, t.affordabilityScore = some a → 0 ≤ a ∧ a ≤ 10) ∧
    (∃ c, t.accessibilityScore = some c ∧ 0 ≤ c ∧ c ≤ 11) ∧
    (∃ line ∈ (csvLines csv).tail,
      numField parseNum (parseCsvLine ((csvLines csv).headD "")) (parseCsvLine line)
        "latitude" = some t.latitude ∧
      numField parseNum (parseCsvLine ((csvLines csv).headD "")) (parseCsvLine line)
        "longitude" = some t.longitude) := by
  unfold parseTreeData at ht
  rcases hcl : csvLines csv with _ | ⟨headerLine, _ | ⟨dl0, dls⟩⟩
  · rw [hcl] at ht
    simp at ht
  · rw [hcl] at ht
    simp at ht
  rw [hcl] at ht
  obtain ⟨t1, ht1, rfl⟩ := mem_assignAccessibilityScores ht
  obtain ⟨t0, ht0, hlat1, hlng1, hst1, haf1, hac1, htf1⟩ := mem_assignTreeFriendsScores ht1
  obtain ⟨line, hline, hrow⟩ := List.mem_filterMap.mp ht0
  obtain ⟨hlat0, hlng0, htf0, haf0⟩ := parseTreeRow_eq_some hrow
  refine ⟨?_, ?_, ?_, ?_⟩
  · show 0 ≤ t1.treeFriendsScore ∧ t1.treeFriendsScore ≤ 10
    rcases htf1 with htf1 | htf1
    · rw [htf1, htf0]
      norm_num
    · exact htf1
  · intro a ha
    show 0 ≤ a ∧ a ≤ 10
    have : t1.affordabilityScore = some a := ha
    rw [haf1] at this
    rcases haf0 with h0 | ⟨r, h0⟩
    · rw [h0] at this
      cases this
    · rw [h0] at this
      rw [Option.some.injEq] at this
      rw [← this]
      exact calculateAffordabilityScore_bounds r
  · refine ⟨_, rfl, ?_⟩
    split_ifs with hdead
    · norm_num
    · have hb1 := normalizeTreeFriendsScore_bounds t1.treeFriendsScore
      have hb2 := normalizeAffordabilityScore_bounds t1.affordabilityScore
      have hb3 := calculateHealthScore_bounds t1
      constructor
      · linarith [hb1.1, hb2.1, hb3.1]
      · linarith [hb1.2, hb2.2, hb3.2]
  · refine ⟨line, ?_, ?_, ?_⟩
    · exact hline
    · show numField parseNum (parseCsvLine headerLine) (parseCsvLine line) "latitude" =
        some t1.latitude
      rw [hlat1]
      exact hlat0
    · show numField parseNum (parseCsvLine headerLine) (parseCsvLine line) "longitude" =
        some t1.longitude
      rw [hlng1]
      exact hlng0

/-- Inputs for the pipeline witness: a two-line CSV with one data row. -/
def witnessCsv : String := "latitude,longitude\n3,4"

/-- A concrete finite-number coercion for the pipeline witness. -/
def witnessParseNum : String → Option ℚ :=
  fun s => if s = "3" then some 3 else if s = "4" then some 4 else none

/-- The record the row parser produces for the witness input. -/
def witnessParsedRow : TreeRecord :=
  { treeId := "unknown", status := "", sidewalk := "", problems := "",
    latitude := 3, longitude := 4, neighborhood := "Unknown", species := "unknown",
    treeFriendsScore := 0, affordabilityScore := none, accessibilityScore := none }

/-- The fully scored record the pipeline outputs for the witness input. -/
def witnessTree : TreeRecord :=
  { witnessParsedRow with treeFriendsScore := 10, accessibilityScore := some 5 }

/-- C9 witness: the invariant instantiated on a one-row pipeline run. -/
theorem pipeline_invariant_witness :
    (0 ≤ witnessTree.treeFriendsScore ∧ witnessTree.treeFriendsScore ≤ 10) ∧
    (∀ a, witnessTree.affordabilityScore = some a → 0 ≤ a ∧ a ≤ 10) ∧
    (∃ c, witnessTree.accessibilityScore = some c ∧ 0 ≤ c ∧ c ≤ 11) ∧
    (∃ line ∈ (csvLines witnessCsv).tail,
      numField witnessParseNum (parseCsvLine ((csvLines witnessCsv).headD ""))
        (parseCsvLine line) "latitude" = some witnessTree.latitude ∧
      numField witnessParseNum (parseCsvLine ((csvLines witnessCsv).headD ""))
        (parseCsvLine line) "longitude" = some witnessTree.longitude) :=
  pipeline_invariant witnessParseNum (fun _ _ _ _ => 0) (fun _ _ _ => 0) witnessCsv []
    (fun _ => none) witnessTree (by
      have h0 : parseTreeData witnessParseNum (fun _ _ _ _ => 0) (fun _ _ _ => 0) witnessCsv []
          (fun _ => none) =
          assignAccessibilityScores (assignTreeFriendsScores (fun _ _ _ _ => 0)
            (fun _ _ _ => 0) [witnessParsedRow] 5) := rfl
      rw [h0, assignTreeFriendsScores_singleton]
      have h1 : assignAccessibilityScores [{ witnessParsedRow with treeFriendsScore := 10 }] =
          [witnessTree] := by
        have hhealth :
            calculateHealthScore { witnessParsedRow with treeFriendsScore := 10 } = 1 := by
          decide
        unfold assignAccessibilityScores
        simp only [List.map_cons, List.map_nil]
        rw [if_neg (by decide :
          ¬jsToLower (jsTrimString
            ({ witnessParsedRow with treeFriendsScore := 10 } : TreeRecord).status) = "dead")]
        rw [hhealth]
        show [{ witnessParsedRow with
                treeFriendsScore := 10,
                accessibilityScore := some (normalizeTreeFriendsScore 10 +
                  normalizeAffordabilityScore none + 1) }] = [witnessTree]
        have hv : normalizeTreeFriendsScore 10 + normalizeAffordabilityScore none + 1 = 5 := by
          norm_num [normalizeTreeFriendsScore, normalizeAffordabilityScore, clamp]
        rw [hv]
        rfl
      rw [h1]
      exact List.mem_singleton_self _)

theorem mem_insertSortedBy {σ α : Type} [LinearOrder α] (key : σ → α) (x b : σ)
    (l : List σ) : b ∈ insertSortedBy key x l ↔ b = x ∨ b ∈ l := by
  induction l with
  | nil => simp [insertSortedBy]
  | cons y ys ih =>
    rw [insertSortedBy]
    split_ifs with hc <;> simp only [List.mem_cons, ih] <;> tauto

theorem mem_sortByKey {σ α : Type} [LinearOrder α] (key : σ → α) (b : σ) (l : List σ) :
    b ∈ sortByKey key l ↔ b ∈ l := by
  induction l with
  | nil => simp [sortByKey]
  | cons y ys ih =>
    rw [sortByKey, mem_insertSortedBy]
    simp only [List.mem_cons, ih]

theorem sorted_insertSortedBy {σ α : Type} [LinearOrder α] (key : σ → α) (x : σ)
    (l : List σ) (h : List.Sorted (fun a b => key a ≤ key b) l) :
    List.Sorted (fun a b => key a ≤ key b) (insertSortedBy key x l) := by
  induction l with
  | nil => simp [insertSortedBy]
  | cons y ys ih =>
    rw [List.sorted_cons] at h
    rw [insertSortedBy]
    split_ifs with hc
    · rw [List.sorted_cons]
      refine ⟨?_, List.sorted_cons.mpr h⟩
      intro b hb
      rcases List.mem_cons.mp hb with rfl | hb
      · exact hc
      · exact le_trans hc (h.1 b hb)
    · rw [List.sorted_cons]
      refine ⟨?_, ih h.2⟩
      intro b hb
      rcases (mem_insertSortedBy key x b ys).mp hb with rfl | hb
      · exact le_of_not_le hc
      · exact h.1 b hb

theorem sorted_sortByKey {σ α : Type} [LinearOrder α] (key : σ → α) (l : List σ) :
    List.Sorted (fun a b => key a ≤ key b) (sortByKey key l) := by
  induction l with
  | nil => simp [sortByKey]
  | cons y ys ih => exact sorted_insertSortedBy key y _ ih

theorem sorted_addDistance {α : Type} [LinearOrderedField α] (k : ℕ) (ds : List α) (d : α) :
    List.Sorted (· ≤ ·) (addDistance k ds d) := by
  have hs : List.Sorted (· ≤ ·) (sortByKey id (ds ++ [d])) := sorted_sortByKey id _
  show List.Sorted (· ≤ ·) (if k < (sortByKey id (ds ++ [d])).length
    then (sortByKey id (ds ++ [d])).dropLast else sortByKey id (ds ++ [d]))
  split_ifs
  · exact hs.sublist (List.dropLast_sublist _)
  · exact hs

theorem mem_addDistance {α : Type} [LinearOrderedField α] {k : ℕ} {ds : List α} {d x : α}
    (h : x ∈ addDistance k ds d) : x ∈ ds ∨ x = d := by
  have h2 : x ∈ (if k < (sortByKey id (ds ++ [d])).length
      then (sortByKey id (ds ++ [d])).dropLast else sortByKey id (ds ++ [d])) := h
  have hx : x ∈ sortByKey id (ds ++ [d]) := by
    split_ifs at h2
    · exact (List.dropLast_sublist _).subset h2
    · exact h2
  rcases List.mem_append.mp ((mem_sortByKey id x _).mp hx) with hx | hx
  · exact Or.inl hx
  · exact Or.inr (List.mem_singleton.mp hx)

/-- The points held by the nodes of a k-d tree. -/
def KdTree.nodesList {α : Type} : KdTree α → List (IdxPoint α)
  | .leaf => []
  | .node p _ l r => p :: (l.nodesList ++ r.nodesList)

theorem searchKd_sorted_sound {α : Type} [LinearOrderedField α]
    (dist : α → α → α → α → α) (axisConv : α → ℕ → α → α) (target : IdxPoint α) (k : ℕ) :
    ∀ (tr : KdTree α) (ds : List α), List.Sorted (· ≤ ·) ds →
      List.Sorted (· ≤ ·) (searchKd dist axisConv target k tr ds) ∧
      ∀ d ∈ searchKd dist axisConv target k tr ds,
        d ∈ ds ∨ ∃ q ∈ tr.nodesList, q.index ≠ target.index ∧
          d = dist target.latitude target.longitude q.latitude q.longitude := by
  intro tr
  induction tr with
  | leaf =>
    intro ds hds
    exact ⟨hds, fun d hd => Or.inl hd⟩
  | node p ax l r ihl ihr =>
    intro ds hds
    simp only [searchKd, KdTree.nodesList]
    set targetValue := if ax = 0 then target.latitude else target.longitude with htv
    set nodeValue := if ax = 0 then p.latitude else p.longitude with hnv
    have step1 : List.Sorted (· ≤ ·)
          (if targetValue < nodeValue then searchKd dist axisConv target k l ds
            else searchKd dist axisConv target k r ds) ∧
        ∀ d ∈ (if targetValue < nodeValue then searchKd dist axisConv target k l ds
            else searchKd dist axisConv target k r ds),
          d ∈ ds ∨ ∃ q ∈ l.nodesList ++ r.nodesList, q.index ≠ target.index ∧
            d = dist target.latitude target.longitude q.latitude q.longitude := by
      split_ifs with hc
      · obtain ⟨h1, h2⟩ := ihl ds hds
        refine ⟨h1, fun d hd => ?_⟩
        rcases h2 d hd with hd2 | ⟨q, hq, hqi, hqd⟩
        · exact Or.inl hd2
        · exact Or.inr ⟨q, List.mem_append_left _ hq, hqi, hqd⟩
      · obtain ⟨h1, h2⟩ := ihr ds hds
        refine ⟨h1, fun d hd => ?_⟩
        rcases h2 d hd with hd2 | ⟨q, hq, hqi, hqd⟩
        · exact Or.inl hd2
        · exact Or.inr ⟨q, List.mem_append_right _ hq, hqi, hqd⟩
    set ds1 := if targetValue < nodeValue then searchKd dist axisConv target k l ds
      else searchKd dist axisConv target k r ds with hds1
    have step2 : List.Sorted (· ≤ ·)
          (if p.index = target.index then ds1
            else addDistance k ds1 (dist target.latitude target.longitude p.latitude p.longitude)) ∧
        ∀ d ∈ (if p.index = target.index then ds1
            else addDistance k ds1 (dist target.latitude target.longitude p.latitude p.longitude)),
          d ∈ ds ∨ ∃ q ∈ p :: (l.nodesList ++ r.nodesList), q.index ≠ target.index ∧
            d = dist target.latitude target.longitude q.latitude q.longitude := by
      split_ifs with hc
      · refine ⟨step1.1, fun d hd => ?_⟩
        rcases step1.2 d hd with hd2 | ⟨q, hq, hqi, hqd⟩
        · exact Or.inl hd2
        · exact Or.inr ⟨q, List.mem_cons_of_mem _ hq, hqi, hqd⟩
      · refine ⟨sorted_addDistance _ _ _, fun d hd => ?_⟩
        rcases mem_addDistance hd with hd2 | rfl
        · rcases step1.2 d hd2 with hd3 | ⟨q, hq, hqi, hqd⟩
          · exact Or.inl hd3
          · exact Or.inr ⟨q, List.mem_cons_of_mem _ hq, hqi, hqd⟩
        · exact Or.inr ⟨p, List.mem_cons_self _ _, hc, rfl⟩
    set ds2 := if p.index = target.index then ds1
      else addDistance k ds1 (dist target.latitude target.longitude p.latitude p.longitude)
      with hds2
    split_ifs with hexp hc
    · obtain ⟨h1, h2⟩ := ihr ds2 step2.1
      refine ⟨h1, fun d hd => ?_⟩
      rcases h2 d hd with hd2 | ⟨q, hq, hqi, hqd⟩
      · exact step2.2 d hd2
      · exact Or.inr ⟨q, List.mem_cons_of_mem _ (List.mem_append_right _ hq), hqi, hqd⟩
    · obtain ⟨h1, h2⟩ := ihl ds2 step2.1
      refine ⟨h1, fun d hd => ?_⟩
      rcases h2 d hd with hd2 | ⟨q, hq, hqi, hqd⟩
      · exact step2.2 d hd2
      · exact Or.inr ⟨q, List.mem_cons_of_mem _ (List.mem_append_left _ hq), hqi, hqd⟩
    · exact step2

theorem buildKdTree_nodes_subset_aux {α : Type} [LinearOrder α] :
    ∀ (n : ℕ) (pts : List (IdxPoint α)) (depth : ℕ), pts.length ≤ n →
      ∀ q ∈ (buildKdTree pts depth).nodesList, q ∈ pts := by
  intro n
  induction n with
  | zero =>
    intro pts depth hlen q hq
    have hpe : pts = [] := List.length_eq_zero.mp (Nat.le_zero.mp hlen)
    subst hpe
    simp [buildKdTree, KdTree.nodesList] at hq
  | succ n ih =>
    intro pts depth hlen q hq
    rcases hp : pts with _ | ⟨p, rest⟩
    · subst hp
      simp [buildKdTree, KdTree.nodesList] at hq
    · subst hp
      rw [buildKdTree] at hq
      split at hq
      · simp [KdTree.nodesList] at hq
      · rename_i m hm
        simp only [KdTree.nodesList, List.mem_cons, List.mem_append] at hq
        rcases hq with rfl | hq | hq
        · obtain ⟨hlt, heq⟩ := List.getElem?_eq_some.mp hm
          have hmem : q ∈ sortByKey
              (fun p2 => if depth % 2 = 0 then p2.latitude else p2.longitude) (p :: rest) := by
            rw [← heq]
            exact List.getElem_mem hlt
          exact (mem_sortByKey _ q _).mp hmem
        · have hlen2 : (List.take ((sortByKey (fun p2 =>
              if depth % 2 = 0 then p2.latitude else p2.longitude) (p :: rest)).length / 2)
              (sortByKey (fun p2 => if depth % 2 = 0 then p2.latitude else p2.longitude)
                (p :: rest))).length ≤ n := by
            simp only [List.length_take, length_sortByKey, List.length_cons] at hlen ⊢
            omega
          have hsub := ih _ (depth + 1) hlen2 q hq
          have hmem : q ∈ sortByKey
              (fun p2 => if depth % 2 = 0 then p2.latitude else p2.longitude) (p :: rest) :=
            List.take_subset _ _ hsub
          exact (mem_sortByKey _ q _).mp hmem
        · have hlen2 : (List.drop ((sortByKey (fun p2 =>
              if depth % 2 = 0 then p2.latitude else p2.longitude) (p :: rest)).length / 2 + 1)
              (sortByKey (fun p2 => if depth % 2 = 0 then p2.latitude else p2.longitude)
                (p :: rest))).length ≤ n := by
            simp only [List.length_drop, length_sortByKey, List.length_cons] at hlen ⊢
            omega
          have hsub := ih _ (depth + 1) hlen2 q hq
          have hmem : q ∈ sortByKey
              (fun p2 => if depth % 2 = 0 then p2.latitude else p2.longitude) (p :: rest) :=
            List.drop_subset _ _ hsub
          exact (mem_sortByKey _ q _).mp hmem

theorem buildKdTree_nodes_subset {α : Type} [LinearOrder α] (pts : List (IdxPoint α))
    (depth : ℕ) : ∀ q ∈ (buildKdTree pts depth).nodesList, q ∈ pts :=
  buildKdTree_nodes_subset_aux pts.length pts depth le_rfl

/-- `toRadians` from the source. -/
noncomputable def toRadians (degrees : ℝ) : ℝ := degrees * Real.pi / 180

/-- JS `Math.atan2(y, x)` (signed zeros identified). -/
noncomputable def atan2 (y x : ℝ) : ℝ :=
  if 0 < x then Real.arctan (y / x)
  else if x < 0 then
    (if 0 ≤ y then Real.arctan (y / x) + Real.pi else Real.arctan (y / x) - Real.pi)
  else
    (if 0 < y then Real.pi / 2 else if y < 0 then -(Real.pi / 2) else 0)

/-- `getDistanceInMeters` from the source: the haversine distance on a sphere
of radius 6,371,000 m, over `ℝ`. -/
noncomputable def getDistanceInMeters (originLat originLng targetLat targetLng : ℝ) : ℝ :=
  let earthRadius : ℝ := 6371000
  let dLat := toRadians (targetLat - originLat)
  let dLng := toRadians (targetLng - originLng)
  let a := Real.sin (dLat / 2) ^ 2 +
    Real.cos (toRadians originLat) * Real.cos (toRadians targetLat) * Real.sin (dLng / 2) ^ 2
  let c := 2 * atan2 (Real.sqrt a) (Real.sqrt (1 - a))
  earthRadius * c

/-- `getMetersPerDegreeLongitude` from the source; a `ℝ` value is always
finite, so only the positivity guard remains. -/
noncomputable def getMetersPerDegreeLongitude (latitude : ℝ) : ℝ :=
  let meters := 111320 * Real.cos (toRadians latitude)
  if 0 < meters then meters else 0

/-- `getAxisDistanceMeters` from the source. -/
noncomputable def getAxisDistanceMeters (deltaDegrees : ℝ) (axis : ℕ)
    (referenceLatitude : ℝ) : ℝ :=
  if deltaDegrees = 0 then 0
  else if axis = 0 then deltaDegrees * 111132
  else deltaDegrees * getMetersPerDegreeLongitude referenceLatitude

/-- Modelled from the spec: the brute-force reference for the k-d query — the
sorted list of true geodesic distances from the target to every other point,
truncated to the k smallest ("cross-check against a brute-force O(N²)
reference"). -/
noncomputable def kSmallestTrueDistances (pts : List (IdxPoint ℝ)) (target : IdxPoint ℝ)
    (k : ℕ) : List ℝ :=
  (sortByKey id ((pts.filter (fun q => decide (q.index ≠ target.index))).map
    (fun q => getDistanceInMeters target.latitude target.longitude q.latitude q.longitude))).take k

/-- C1 amended: the k-d query output is sorted non-decreasing and every
returned value is the true haversine distance from the target to some other
point of the indexed set.  (The full brute-force equality claimed by the spec
fails; see the counterexample below.) -/
theorem kd_query_sorted_sound (pts : List (IdxPoint ℝ)) (target : IdxPoint ℝ) (k : ℕ) :
    List.Sorted (· ≤ ·) (findKNearestNeighborDistances getDistanceInMeters
      getAxisDistanceMeters (buildKdTree pts 0) target k) ∧
    ∀ d ∈ findKNearestNeighborDistances getDistanceInMeters getAxisDistanceMeters
        (buildKdTree pts 0) target k,
      ∃ q ∈ pts, q.index ≠ target.index ∧
        d = getDistanceInMeters target.latitude target.longitude q.latitude q.longitude := by
  have h := searchKd_sorted_sound getDistanceInMeters getAxisDistanceMeters target k
    (buildKdTree pts 0) [] (by simp)
  refine ⟨h.1, fun d hd => ?_⟩
  rcases h.2 d hd with hd2 | ⟨q, hq, hqi, hqd⟩
  · simp at hd2
  · exact ⟨q, buildKdTree_nodes_subset pts 0 q hq, hqi, hqd⟩

theorem getDistanceInMeters_equator (a b : ℝ) (h : |b - a| < 180) :
    getDistanceInMeters 0 a 0 b = 6371000 * (Real.pi / 180) * |b - a| := by
  have hpi := Real.pi_pos
  set x := toRadians (b - a) / 2 with hxdef
  have hxval : x = (b - a) * (Real.pi / 360) := by
    rw [hxdef]
    unfold toRadians
    ring
  have habs : |x| = |b - a| * (Real.pi / 360) := by
    rw [hxval, abs_mul, abs_of_pos (by positivity : (0:ℝ) < Real.pi / 360)]
  have hxlt : |x| < Real.pi / 2 := by
    rw [habs]
    nlinarith [h, hpi, abs_nonneg (b - a)]
  have hxlt1 : x < Real.pi / 2 := lt_of_le_of_lt (le_abs_self x) hxlt
  have hxgt1 : -(Real.pi / 2) < x := by
    have := neg_abs_le x
    linarith [hxlt]
  have hcosx : 0 < Real.cos x := Real.cos_pos_of_mem_Ioo ⟨hxgt1, hxlt1⟩
  have hsinabs : |Real.sin x| = Real.sin |x| := by
    rcases le_or_lt 0 x with hx0 | hx0
    · rw [abs_of_nonneg hx0,
        abs_of_nonneg (Real.sin_nonneg_of_nonneg_of_le_pi hx0 (by linarith))]
    · have hsx : Real.sin x ≤ 0 :=
        Real.sin_nonpos_of_nonnpos_of_neg_pi_le (le_of_lt hx0) (by linarith)
      rw [abs_of_nonpos hsx, abs_of_neg hx0, Real.sin_neg]
  have harg : Real.sin (toRadians (0 - 0) / 2) ^ 2 +
      Real.cos (toRadians 0) * Real.cos (toRadians 0) * Real.sin x ^ 2 = Real.sin x ^ 2 := by
    rw [show toRadians (0 - 0) = 0 from by unfold toRadians; ring]
    rw [show toRadians (0 : ℝ) = 0 from by unfold toRadians; ring]
    simp
  have hmain : getDistanceInMeters 0 a 0 b =
      6371000 * (2 * atan2 (Real.sqrt (Real.sin x ^ 2)) (Real.sqrt (1 - Real.sin x ^ 2))) := by
    show 6371000 * (2 * atan2
        (Real.sqrt (Real.sin (toRadians (0 - 0) / 2) ^ 2 +
          Real.cos (toRadians 0) * Real.cos (toRadians 0) * Real.sin x ^ 2))
        (Real.sqrt (1 - (Real.sin (toRadians (0 - 0) / 2) ^ 2 +
          Real.cos (toRadians 0) * Real.cos (toRadians 0) * Real.sin x ^ 2)))) = _
    rw [harg]
  rw [hmain]
  rw [show (1 - Real.sin x ^ 2) = Real.cos x ^ 2 from by
    nlinarith [Real.sin_sq_add_cos_sq x]]
  rw [Real.sqrt_sq_eq_abs, Real.sqrt_sq_eq_abs, hsinabs, abs_of_pos hcosx]
  have hatan : atan2 (Real.sin |x|) (Real.cos x) = |x| := by
    unfold atan2
    rw [if_pos hcosx]
    rw [show Real.cos x = Real.cos |x| from (Real.cos_abs x).symm]
    rw [← Real.tan_eq_sin_div_cos]
    exact Real.arctan_tan (by linarith [abs_nonneg x]) hxlt
  rw [hatan, habs]
  ring

/-- Counterexample data for the brute-force equivalence: four points on the
equator.  Longitude gaps put the far child just inside the window where the
111320 m/degree pruning conversion exceeds the true equatorial
6371000·π/180 ≈ 111195 m/degree haversine rate. -/
noncomputable def cexP0 : IdxPoint ℝ := ⟨0, -1.0001, 0⟩
noncomputable def cexP1 : IdxPoint ℝ := ⟨0, -1, 1⟩
noncomputable def cexP2 : IdxPoint ℝ := ⟨0, 1.001, 2⟩
noncomputable def cexP3 : IdxPoint ℝ := ⟨0, 0, 3⟩
noncomputable def cexPoints : List (IdxPoint ℝ) := [cexP0, cexP1, cexP2, cexP3]
noncomputable def cexTree : KdTree ℝ :=
  KdTree.node cexP2 0
    (KdTree.node cexP1 1 (KdTree.node cexP0 0 KdTree.leaf KdTree.leaf) KdTree.leaf)
    (KdTree.node cexP3 1 KdTree.leaf KdTree.leaf)

/-- The k-d tree built over the counterexample points. -/
theorem cex_build : buildKdTree cexPoints 0 = cexTree := by
  rw [show cexPoints = [cexP0, cexP1, cexP2, cexP3] from rfl]
  rw [buildKdTree]
  norm_num [sortByKey, insertSortedBy, cexP0, cexP1, cexP2, cexP3, cexTree]
  constructor
  · rw [buildKdTree]
    norm_num [sortByKey, insertSortedBy]
    constructor
    · simpa using buildKdTree_singleton (α := ℝ) ⟨0, -(10001/10000), 0⟩ 2
    · simp [buildKdTree]
  · simpa using buildKdTree_singleton (α := ℝ) ⟨0, 0, 3⟩ 1

theorem addDistance_two_nil (d : ℝ) : addDistance 2 [] d = [d] := by
  show (if 2 < (sortByKey id ([] ++ [d])).length then (sortByKey id ([] ++ [d])).dropLast
    else sortByKey id ([] ++ [d])) = [d]
  norm_num [sortByKey, insertSortedBy]

/-- The pruned query from the 4th point with k = 2: the true second-nearest
point `cexP0` is pruned away because the axis conversion (111320 m) exceeds
the current worst kept distance (≈ 111306 m), and the query returns the
third-nearest distance instead. -/
theorem cex_search :
    findKNearestNeighborDistances getDistanceInMeters getAxisDistanceMeters
      (buildKdTree cexPoints 0) cexP3 2 =
    [6371000 * (Real.pi / 180), 6371000 * (Real.pi / 180) * (1001 / 1000)] := by
  have hpi := Real.pi_pos
  have hpile : Real.pi < 3.141593 := Real.pi_lt_d6
  have hd1 : getDistanceInMeters 0 0 0 (-1 : ℝ) = 6371000 * (Real.pi / 180) * 1 := by
    rw [getDistanceInMeters_equator 0 (-1) (by rw [abs_lt]; constructor <;> norm_num)]
    norm_num
  have hd2 : getDistanceInMeters 0 0 0 ((1001 : ℝ) / 1000) =
      6371000 * (Real.pi / 180) * (1001 / 1000) := by
    rw [getDistanceInMeters_equator 0 ((1001 : ℝ) / 1000)
      (by rw [abs_lt]; constructor <;> norm_num)]
    rw [show |(1001 : ℝ) / 1000 - 0| = 1001 / 1000 by rw [abs_eq_self.mpr] <;> norm_num]
  have haxC : getAxisDistanceMeters (1 : ℝ) 1 0 = 111320 := by
    unfold getAxisDistanceMeters getMetersPerDegreeLongitude toRadians
    norm_num
  have hadd : addDistance 2 [6371000 * (Real.pi / 180) * (1001 / 1000)]
      (6371000 * (Real.pi / 180)) =
      [6371000 * (Real.pi / 180), 6371000 * (Real.pi / 180) * (1001 / 1000)] := by
    have hs : sortByKey id ([6371000 * (Real.pi / 180) * (1001 / 1000)] ++
        [6371000 * (Real.pi / 180)]) =
        [6371000 * (Real.pi / 180), 6371000 * (Real.pi / 180) * (1001 / 1000)] := by
      simp only [List.cons_append, List.nil_append, sortByKey, insertSortedBy, id]
      rw [if_neg (by nlinarith :
        ¬ (6371000 * (Real.pi / 180) * (1001 / 1000) ≤ 6371000 * (Real.pi / 180)))]
    show (if 2 < (sortByKey id ([6371000 * (Real.pi / 180) * (1001 / 1000)] ++
        [6371000 * (Real.pi / 180)])).length then
        (sortByKey id ([6371000 * (Real.pi / 180) * (1001 / 1000)] ++
          [6371000 * (Real.pi / 180)])).dropLast
      else sortByKey id ([6371000 * (Real.pi / 180) * (1001 / 1000)] ++
        [6371000 * (Real.pi / 180)])) = _
    rw [hs]
    norm_num
  unfold findKNearestNeighborDistances
  rw [cex_build]
  simp only [cexTree, searchKd, cexP0, cexP1, cexP2, cexP3]
  norm_num [hd1]
  rw [addDistance_two_nil, hd2, hadd]
  rw [if_pos (Or.inl (by norm_num :
    ([6371000 * (Real.pi / 180) * (1001 / 1000)] : List ℝ).length < 2))]
  rw [show (([6371000 * (Real.pi / 180),
      6371000 * (Real.pi / 180) * (1001 / 1000)] : List ℝ)).getLast? =
    some (6371000 * (Real.pi / 180) * (1001 / 1000)) from rfl]
  simp only [haxC]
  rw [decide_eq_false (by linarith :
    ¬((111320 : ℝ) < 6371000 * (Real.pi / 180) * (1001 / 1000)))]
  norm_num

/-- The brute-force reference on the same input keeps the two genuinely
smallest distances. -/
theorem cex_brute :
    kSmallestTrueDistances cexPoints cexP3 2 =
    [6371000 * (Real.pi / 180), 6371000 * (Real.pi / 180) * (10001 / 10000)] := by
  have hpi := Real.pi_pos
  have hd0 : getDistanceInMeters 0 0 0 (-((10001 : ℝ) / 10000)) =
      6371000 * (Real.pi / 180) * (10001 / 10000) := by
    rw [getDistanceInMeters_equator 0 (-((10001 : ℝ) / 10000))
      (by rw [abs_lt]; constructor <;> norm_num)]
    rw [show |(-((10001 : ℝ) / 10000)) - 0| = 10001 / 10000 by
      rw [show (-((10001 : ℝ) / 10000)) - 0 = -(10001 / 10000) by ring, abs_neg,
        abs_eq_self.mpr (by norm_num)]]
  have hd1 : getDistanceInMeters 0 0 0 (-1 : ℝ) = 6371000 * (Real.pi / 180) * 1 := by
    rw [getDistanceInMeters_equator 0 (-1) (by rw [abs_lt]; constructor <;> norm_num)]
    norm_num
  have hd2 : getDistanceInMeters 0 0 0 ((1001 : ℝ) / 1000) =
      6371000 * (Real.pi / 180) * (1001 / 1000) := by
    rw [getDistanceInMeters_equator 0 ((1001 : ℝ) / 1000)
      (by rw [abs_lt]; constructor <;> norm_num)]
    rw [show |(1001 : ℝ) / 1000 - 0| = 1001 / 1000 by rw [abs_eq_self.mpr] <;> norm_num]
  unfold kSmallestTrueDistances
  simp only [cexPoints, cexP0, cexP1, cexP2, cexP3]
  norm_num [hd0, hd1, hd2]
  have hsort : sortByKey id
      [6371000 * (Real.pi / 180) * (10001 / 10000), 6371000 * (Real.pi / 180),
        6371000 * (Real.pi / 180) * (1001 / 1000)] =
      [6371000 * (Real.pi / 180), 6371000 * (Real.pi / 180) * (10001 / 10000),
        6371000 * (Real.pi / 180) * (1001 / 1000)] := by
    simp only [sortByKey, insertSortedBy, id]
    rw [if_pos (by nlinarith :
      (6371000 * (Real.pi / 180) : ℝ) ≤ 6371000 * (Real.pi / 180) * (1001 / 1000))]
    simp only [insertSortedBy, id]
    rw [if_neg (by nlinarith :
      ¬ ((6371000 * (Real.pi / 180) * (10001 / 10000) : ℝ) ≤ 6371000 * (Real.pi / 180)))]
    rw [if_pos (by nlinarith :
      (6371000 * (Real.pi / 180) * (10001 / 10000) : ℝ) ≤
        6371000 * (Real.pi / 180) * (1001 / 1000))]
  rw [hsort]
  rfl

/-- C1 counterexample: on the explicit 4-point equatorial input, the k-d
query result differs from the brute-force k smallest true geodesic
distances, refuting the claimed equivalence. -/
theorem kd_query_brute_force_cex :
    findKNearestNeighborDistances getDistanceInMeters getAxisDistanceMeters
      (buildKdTree cexPoints 0) cexP3 2 ≠ kSmallestTrueDistances cexPoints cexP3 2 := by
  rw [cex_search, cex_brute]
  intro h
  simp only [List.cons.injEq, and_true] at h
  have h2 := h.2
  have hpi := Real.pi_pos
  nlinarith [h2, hpi]
